import Mathlib

/-!
# gohs: request executor, status classifier, paginator and path extractor

A shallow embedding of `gohs.go` (package `gohs`) and theorems about it.

Conventions of the embedding

* Go `int` is the 64-bit signed integer; values are carried as `Int` and the one
  arithmetic operation that can overflow (`n1 + n2` in `addIntegerToStringInteger`)
  is wrapped explicitly.
* A Go `error` is a `GoError`; the package-level variable `ErrExcessRequest` is its own
  constructor so that identity with the sentinel (`err == ErrExcessRequest`) can be told
  apart from a value freshly built by `errors.New`.
* A Go `(T, error)` result keeps both components.
* A run-time panic (failed type assertion, index out of range) is `Except.error`.
* The network is a parameter: `World` says what the n-th attempt to talk to the
  server produces for a given request URL.  Calls of `time.Sleep` and requests handed to
  `cl.Do` are recorded in a trace of `Event`s.  Output on stdout (`fmt.Println`) is not
  modelled.
* Loops that the source does not bound are run with fuel; `none` means that the
  fuel was used up before the function returned.
-/

namespace Gohs

/-! ## Errors -/

/-- A Go error value.  `excessRequest` is the value stored in the package variable
`ErrExcessRequest`; `fresh msg` is a value made by a call of `errors.New(msg)` (or any
other library error with that message). -/
inductive GoError where
  | excessRequest
  | fresh (msg : String)
  deriving DecidableEq, Repr

/-- The package-level sentinel `ErrExcessRequest = errors.New("429 rate limit requests exceeded")`. -/
def ErrExcessRequest : GoError := GoError.excessRequest

/-- Go `errors.New(msg)`: a new error value, never identical to the sentinel. -/
def errorsNew (msg : String) : GoError := GoError.fresh msg

/-- The method `Error()` of an error value. -/
def GoError.Error : GoError → String
  | GoError.excessRequest => "429 rate limit requests exceeded"
  | GoError.fresh msg => msg

/-- Source function `createError(s, err)`: `errors.New(s + err.Error())`. -/
def createError (s : String) (err : GoError) : GoError :=
  errorsNew (s ++ err.Error)

/-! ## strconv -/

/-- Largest value of a Go `int` (64 bit). -/
def maxInt : Int := 9223372036854775807

/-- Smallest value of a Go `int` (64 bit). -/
def minInt : Int := -9223372036854775808

/-- Two's complement wrap-around of a mathematical integer into the range of `int`. -/
def wrapInt (n : Int) : Int :=
  (n + 9223372036854775808) % 18446744073709551616 - 9223372036854775808

/-- Go `strconv.Itoa`: decimal text of an integer. -/
def Itoa (n : Int) : String :=
  if n < 0 then "-" ++ Nat.repr n.natAbs else Nat.repr n.natAbs

/-- Value of a run of ASCII decimal digits without any bound, `none` when a character is
not a digit (used to reason about `parseUint`). -/
def parseDigits : List Char → Nat → Option Nat
  | [], acc => some acc
  | c :: cs, acc =>
    if c.isDigit then parseDigits cs (acc * 10 + (c.toNat - 48)) else none

/-- The two errors of package `strconv`: `ErrSyntax` and `ErrRange`. -/
inductive NumErr where
  | invalid
  | outOfRange
  deriving DecidableEq, Repr

/-- The loop of Go `strconv.ParseUint(s, 10, 64)` from the accumulator `n`: the characters
are read from the left, the first character that is not a decimal digit is a syntax error
(value 0), the first overflow of `uint64` is a range error (value 2^64 - 1). -/
def parseUint : List Char → Nat → Nat × Option NumErr
  | [], n => (n, none)
  | c :: cs, n =>
    if c.isDigit then
      if 1844674407370955162 ≤ n then (18446744073709551615, some NumErr.outOfRange)
      else if 18446744073709551615 < n * 10 + (c.toNat - 48) then
        (18446744073709551615, some NumErr.outOfRange)
      else parseUint cs (n * 10 + (c.toNat - 48))
    else (0, some NumErr.invalid)

/-- A lower-case hexadecimal digit. -/
def hexDigit (n : Nat) : Char :=
  if n < 10 then Char.ofNat (48 + n) else Char.ofNat (87 + n)

/-- The text that Go `strconv.Quote` writes for one character: the double quote and the
backslash are escaped, printable ASCII is kept, the ASCII control characters are written
as escapes; characters beyond ASCII are kept (`strconv.Quote` escapes those of them that
are not printable). -/
def quoteChar (c : Char) : List Char :=
  if c.toNat = 34 then [Char.ofNat 92, Char.ofNat 34]
  else if c.toNat = 92 then [Char.ofNat 92, Char.ofNat 92]
  else if 32 ≤ c.toNat ∧ c.toNat < 127 then [c]
  else if c.toNat = 7 then [Char.ofNat 92, 'a']
  else if c.toNat = 8 then [Char.ofNat 92, 'b']
  else if c.toNat = 12 then [Char.ofNat 92, 'f']
  else if c.toNat = 10 then [Char.ofNat 92, 'n']
  else if c.toNat = 13 then [Char.ofNat 92, 'r']
  else if c.toNat = 9 then [Char.ofNat 92, 't']
  else if c.toNat = 11 then [Char.ofNat 92, 'v']
  else if c.toNat < 32 ∨ c.toNat = 127 then
    [Char.ofNat 92, 'x', hexDigit (c.toNat / 16), hexDigit (c.toNat % 16)]
  else [c]

/-- Go `strconv.Quote(s)`. -/
def strconvQuote (s : String) : String :=
  String.mk (Char.ofNat 34 :: (s.data.flatMap quoteChar ++ [Char.ofNat 34]))

/-- The message of a `*strconv.NumError` made by `Atoi`. -/
def numErrorMsg (s : String) (why : String) : String :=
  "strconv.Atoi: parsing " ++ strconvQuote s ++ ": " ++ why

/-- Go `strconv.Atoi`: the parsed value and the error.  The sign is split off and the rest
is read by `ParseUint`; on a syntax error the value is 0, on a range error it is the
nearest bound of `int`.  (The fast path that `Atoi` takes for short texts computes the
same result.) -/
def Atoi (s : String) : Int × Option GoError :=
  match s.data with
  | [] => (0, some (errorsNew (numErrorMsg s "invalid syntax")))
  | c :: rest =>
    let neg : Bool := c = '-'
    let digits : List Char := if c = '+' ∨ c = '-' then rest else c :: rest
    if digits = [] then (0, some (errorsNew (numErrorMsg s "invalid syntax")))
    else
      match parseUint digits 0 with
      | (_, some NumErr.invalid) => (0, some (errorsNew (numErrorMsg s "invalid syntax")))
      | (un, _) =>
        if neg = false ∧ (9223372036854775808 : Nat) ≤ un then
          (maxInt, some (errorsNew (numErrorMsg s "value out of range")))
        else if neg = true ∧ (9223372036854775808 : Nat) < un then
          (minInt, some (errorsNew (numErrorMsg s "value out of range")))
        else
          (if neg then -(un : Int) else (un : Int), none)

/-- Source function `addIntegerToStringInteger(s1, s2)`: both strings are parsed with
`Atoi`, the first error is returned with the empty string, otherwise the sum is printed. -/
def addIntegerToStringInteger (s1 s2 : String) : String × Option GoError :=
  match Atoi s1 with
  | (_, some err) => ("", some err)
  | (n1, none) =>
    match Atoi s2 with
    | (_, some err) => ("", some err)
    | (n2, none) => (Itoa (wrapInt (n1 + n2)), none)

/-! ## JSON values as decoded by `encoding/json` into `interface{}` -/

/-- A finite `float64`: the number `(-1)^neg * mant * 2^exp`. -/
structure Float64 where
  neg : Bool
  mant : Nat
  exp : Int
  deriving DecidableEq, Repr

/-- A decoded JSON value.  An object (`map[string]interface{}`) is the list of its
entries in the order in which a `range` over the map visits them. -/
inductive JVal where
  | null
  | bool (b : Bool)
  | num (x : Float64)
  | str (s : String)
  | arr (xs : List JVal)
  | obj (fields : List (String × JVal))
  deriving Repr

/-- A JSON document, `map[string]interface{}`. -/
abbrev JObj := List (String × JVal)

/-- The map index expression `obj[key]` with the comma-ok form: `some v` when the key exists
(the first entry with that key; the keys of a Go map are distinct). -/
def JObj.get (obj : JObj) (key : String) : Option JVal :=
  match obj with
  | [] => none
  | (k, v) :: rest => if k = key then some v else JObj.get rest key

/-- The integer nearest to `mant * 2^exp`, a tie going to the even neighbour: the
digits that `strconv.FormatFloat(f, 'f', 0, 64)` prints. -/
def roundHalfEven (mant : Nat) (exp : Int) : Nat :=
  if 0 ≤ exp then mant * 2 ^ exp.toNat
  else
    let d := 2 ^ (-exp).toNat
    let q := mant / d
    let r := mant % d
    if 2 * r < d then q
    else if d < 2 * r then q + 1
    else if q % 2 = 0 then q else q + 1

/-- Go `fmt.Sprintf("%.0f", x)`: the sign, then the rounded integer in decimal. -/
def sprintfF0 (x : Float64) : String :=
  (if x.neg then "-" else "") ++ Nat.repr (roundHalfEven x.mant x.exp)

/-- The float64 that holds the natural number `n` (exact for `n < 2^53`). -/
def Float64.ofNat (n : Nat) : Float64 := ⟨false, n, 0⟩

/-! ## The request descriptor -/

/-- The fields of `HSRequest` that the executor, the classifier and the paginator read.
`URL` is the text `hsR.URL.String()` (query included); `paramsURL` holds the entries of
the `url.Values` map. -/
structure HSRequest where
  loaded : Bool
  httpMethod : String
  headers : List (String × String)
  paramsURL : List (String × List String)
  URL : String
  body : String
  successCode : Int
  hasOffset : Bool
  offsetIdentifier : String
  returnedOffsetIdentifier : String
  useLimitAsOffset : Bool
  limit : String
  limitIdentifier : String
  totalIndentifier : String
  deriving Repr

/-! ## The network -/

/-- What `ioutil.ReadAll(resp.Body)` followed by `json.Unmarshal` into a
`map[string]interface{}` makes of a response body. -/
inductive Body where
  | empty
  | malformed (msg : String)
  | object (doc : JObj)
  deriving Repr

/-- An `*http.Response`: the status code and the body. -/
structure Response where
  StatusCode : Int
  body : Body
  deriving Repr

/-- What one attempt produces: `http.NewRequest` fails, `cl.Do` fails, or a response arrives. -/
inductive Attempt where
  | newRequestFailed (msg : String)
  | sendFailed (msg : String)
  | answered (resp : Response)
  deriving Repr

/-- The environment: the outcome of the n-th attempt (counted from 0) for a request URL. -/
abbrev World := Nat → String → Attempt

/-- Observable actions of a run. -/
inductive Event where
  | roundTrip (url : String)
  | sleep (seconds : Nat)
  deriving DecidableEq, Repr

/-! ## Status classifier -/

/-- Result of `ErrorCodeHandler`: the two returned values and the seconds spent in
`time.Sleep` before returning. -/
structure Handled where
  retry : Bool
  err : Option GoError
  slept : Nat
  deriving DecidableEq, Repr

/-- Source method `(hsR *HSRequest) ErrorCodeHandler(resp)`.  In the default case the source
also reads the body and prints it, which does not change what is returned. -/
def ErrorCodeHandler (hsR : HSRequest) (resp : Response) : Handled :=
  if resp.StatusCode ≠ hsR.successCode then
    if resp.StatusCode = 401 then
      ⟨false, some (errorsNew "401 authentication invalid"), 0⟩
    else if resp.StatusCode = 403 then
      ⟨false, some (errorsNew "403 authentication permissions insufficient"), 0⟩
    else if resp.StatusCode = 404 then
      ⟨false, some (errorsNew "404 unkown endpoint"), 0⟩
    else if resp.StatusCode = 415 then
      ⟨false, some (errorsNew "415 unsupported media type"), 0⟩
    else if resp.StatusCode = 429 then
      ⟨false, some ErrExcessRequest, 0⟩
    else if resp.StatusCode = 502 ∨ resp.StatusCode = 504 then
      ⟨true, some (errorsNew (Itoa resp.StatusCode ++ " timeout")), 2⟩
    else if resp.StatusCode = 500 then
      ⟨true, some (errorsNew "internal server error"), 1⟩
    else
      ⟨true, some (errorsNew ("unhandled code: " ++ Itoa resp.StatusCode)), 0⟩
  else
    ⟨true, none, 0⟩

/-! ## Field locator -/

mutual
/-- The body of `iterateSearchForOffset(obj, pname)` for the object held by a value
(the function is only ever applied to objects).  A value under `pname` that is not a
`float64` makes the type assertion `valueT.(float64)` panic. -/
def locate : JVal → String → Except String String
  | JVal.obj obj, pname =>
    match JObj.get obj pname with
    | some (JVal.num x) => Except.ok (sprintfF0 x)
    | some _ => Except.error "interface conversion: interface is not float64"
    | none => locateRange obj pname
  | _, _ => Except.ok ""
/-- The loop `for _, v := range obj` of `iterateSearchForOffset`. -/
def locateRange : List (String × JVal) → String → Except String String
  | [], _ => Except.ok ""
  | (_, v) :: rest, pname =>
    match v with
    | JVal.obj _ =>
      match locate v pname with
      | Except.ok value => if value ≠ "" then Except.ok value else locateRange rest pname
      | Except.error p => Except.error p
    | _ => locateRange rest pname
end

/-- Source function `iterateSearchForOffset(obj, pname)`; the empty string is "not found". -/
def iterateSearchForOffset (obj : JObj) (pname : String) : Except String String :=
  locate (JVal.obj obj) pname

/-! ## Runs -/

/-- The outcome of a run: the returned pair `(value, error)` or a panic, with the trace
of what was done. -/
structure Run (α : Type) where
  exit : Except String (α × Option GoError)
  trace : List Event

/-- The events of a `time.Sleep` of `seconds` seconds (none when it was not called). -/
def sleepEvents (seconds : Nat) : List Event :=
  if seconds = 0 then [] else [Event.sleep seconds]

/-! ## Paginator -/

/-- Local variables of `DoLoopRequest` that live across iterations, the number of
attempts made and the trace. -/
structure LoopState where
  data : List JObj
  errcount : Int
  offset : String
  pastoffset : String
  total : Int
  attempts : Nat
  trace : List Event

/-- The URL of a page request: `hsR.URL.String() + offsetString`. -/
def requestURL (hsR : HSRequest) (offset : String) : String :=
  hsR.URL ++ ((if hsR.paramsURL.length > 0 then "&" else "?") ++ hsR.offsetIdentifier ++ "=" ++ offset)

/-- How one pass through the body of a loop ends. -/
inductive Step where
  | ret (r : Run (List JObj))
  | next (s : LoopState) (retry : Bool)

/-- Variables at the start of `DoLoopRequest`. -/
def LoopState.init : LoopState :=
  { data := [], errcount := 0, offset := "0", pastoffset := "", total := -1,
    attempts := 0, trace := [] }

/-- One pass through the body of `for retry` in `DoLoopRequest`. -/
def DoLoopRequest.body (hsR : HSRequest) (errThreshold : Int) (w : World) (s : LoopState) : Step :=
  let url := requestURL hsR s.offset
  match w s.attempts url with
  | Attempt.newRequestFailed msg =>
    let s1 := { s with errcount := s.errcount + 1, attempts := s.attempts + 1 }
    if s1.errcount ≥ errThreshold then
      Step.ret ⟨Except.ok ([], some (createError "http.NewRequest: " (errorsNew msg))), s1.trace⟩
    else Step.next s1 true
  | Attempt.sendFailed msg =>
    let s1 := { s with errcount := s.errcount + 1, attempts := s.attempts + 1,
                       trace := s.trace ++ [Event.roundTrip url] }
    if s1.errcount ≥ errThreshold then
      Step.ret ⟨Except.ok ([], some (createError "cl.Do: " (errorsNew msg))), s1.trace⟩
    else Step.next s1 true
  | Attempt.answered resp =>
    let h := ErrorCodeHandler hsR resp
    let s1 := { s with attempts := s.attempts + 1,
                       trace := s.trace ++ [Event.roundTrip url] ++ sleepEvents h.slept }
    match h.err with
    | some err =>
      let s2 := { s1 with errcount := s1.errcount + 1 }
      if s2.errcount ≥ errThreshold then
        Step.ret ⟨Except.ok ([], some (createError "hsR.ErrorCodeHandler: " err)), s2.trace⟩
      else Step.next s2 h.retry
    | none =>
      match resp.body with
      | Body.empty =>
        Step.ret ⟨Except.ok ([], some (errorsNew "request body not found")), s1.trace⟩
      | Body.malformed msg =>
        let s2 := { s1 with errcount := s1.errcount + 1 }
        if s2.errcount ≥ errThreshold then
          Step.ret ⟨Except.ok ([], some (createError "json.Unmarshal: " (errorsNew msg))), s2.trace⟩
        else Step.next s2 h.retry
      | Body.object dataoutput =>
        let s2 := { s1 with pastoffset := s1.offset }
        if hsR.useLimitAsOffset = false then
          match iterateSearchForOffset dataoutput hsR.returnedOffsetIdentifier with
          | Except.error p => Step.ret ⟨Except.error p, s2.trace⟩
          | Except.ok offset =>
            if offset = "" then
              Step.ret ⟨Except.ok ([], some (errorsNew "offset not found")), s2.trace⟩
            else
              Step.next { s2 with offset := offset, data := s2.data ++ [dataoutput] } false
        else
          let total : Except String Int :=
            if s2.total < (0 : Int) then
              match iterateSearchForOffset dataoutput hsR.totalIndentifier with
              | Except.error p => Except.error p
              | Except.ok totalT => Except.ok (Atoi totalT).1
            else Except.ok s2.total
          match total with
          | Except.error p => Step.ret ⟨Except.error p, s2.trace⟩
          | Except.ok total =>
            match addIntegerToStringInteger s2.offset hsR.limit with
            | (_, some err) =>
              Step.ret ⟨Except.ok ([], some (createError "addIntegerToStringInteger: " err)), s2.trace⟩
            | (offset, none) =>
              Step.next { s2 with total := total, offset := offset,
                                  data := s2.data ++ [dataoutput] } false

/-- The statements of `for hasmore` after the inner loop: `ret` when the function returns,
`next s hasmore` otherwise. -/
def DoLoopRequest.check (hsR : HSRequest) (s : LoopState) : Step :=
  if hsR.useLimitAsOffset = false then
    if (s.pastoffset ≠ "0" ∧ s.offset = "0") ∨ s.pastoffset = s.offset then
      Step.next s false
    else Step.next s true
  else
    match Atoi s.offset with
    | (_, some err) =>
      Step.ret ⟨Except.ok ([], some (createError "unable to convert limit offset to int" err)), s.trace⟩
    | (offsetNum, none) =>
      if offsetNum ≥ s.total then Step.next s false else Step.next s true

/-- The two nested loops of `DoLoopRequest`, one unit of fuel for each pass through the
body of `for retry`. -/
def DoLoopRequest.loop (hsR : HSRequest) (errThreshold : Int) (w : World) :
    Nat → LoopState → Option (Run (List JObj))
  | 0, _ => none
  | fuel + 1, s =>
    match DoLoopRequest.body hsR errThreshold w s with
    | Step.ret r => some r
    | Step.next s1 true => DoLoopRequest.loop hsR errThreshold w fuel s1
    | Step.next s1 false =>
      match DoLoopRequest.check hsR s1 with
      | Step.ret r => some r
      | Step.next s2 true => DoLoopRequest.loop hsR errThreshold w fuel s2
      | Step.next s2 false => some ⟨Except.ok (s2.data, none), s2.trace⟩

/-- Source method `(hsR *HSRequest) DoLoopRequest()` under the error threshold
`errThreshold`, in the world `w`, with `fuel` passes allowed. -/
def DoLoopRequest (hsR : HSRequest) (errThreshold : Int) (w : World) (fuel : Nat) :
    Option (Run (List JObj)) :=
  DoLoopRequest.loop hsR errThreshold w fuel LoopState.init

/-! ## Single-request executor -/

/-- The `interface{}` returned by `Do`. -/
inductive DoData where
  | nil
  | object (doc : JObj)
  | pages (docs : List JObj)
  deriving Repr

/-- The loop `for retry` of the non-paginated branch of `Do`: `errcount`, the number of
attempts made and the trace are carried along. -/
def Do.loop (hsR : HSRequest) (errThreshold : Int) (w : World) :
    Nat → Int → Nat → List Event → Option (Run DoData)
  | 0, _, _, _ => none
  | fuel + 1, errcount, attempts, trace =>
    match w attempts hsR.URL with
    | Attempt.newRequestFailed msg =>
      if errcount + 1 ≥ errThreshold then
        some ⟨Except.ok (DoData.nil, some (createError "http.NewRequest: " (errorsNew msg))), trace⟩
      else Do.loop hsR errThreshold w fuel (errcount + 1) (attempts + 1) trace
    | Attempt.sendFailed msg =>
      let trace1 := trace ++ [Event.roundTrip hsR.URL]
      if errcount + 1 ≥ errThreshold then
        some ⟨Except.ok (DoData.nil, some (createError "cl.Do: " (errorsNew msg))), trace1⟩
      else Do.loop hsR errThreshold w fuel (errcount + 1) (attempts + 1) trace1
    | Attempt.answered resp =>
      let h := ErrorCodeHandler hsR resp
      let trace1 := trace ++ [Event.roundTrip hsR.URL] ++ sleepEvents h.slept
      match h.err with
      | some err =>
        if errcount + 1 ≥ errThreshold then
          some ⟨Except.ok (DoData.nil, some (createError "hsR.ErrorCodeHandler: " err)), trace1⟩
        else if h.retry then Do.loop hsR errThreshold w fuel (errcount + 1) (attempts + 1) trace1
        else some ⟨Except.ok (DoData.nil, none), trace1⟩
      | none =>
        match resp.body with
        | Body.empty => some ⟨Except.ok (DoData.nil, none), trace1⟩
        | Body.malformed msg =>
          if errcount + 1 ≥ errThreshold then
            some ⟨Except.ok (DoData.nil, some (createError "json.Unmarshal: " (errorsNew msg))), trace1⟩
          else if h.retry then Do.loop hsR errThreshold w fuel (errcount + 1) (attempts + 1) trace1
          else some ⟨Except.ok (DoData.nil, none), trace1⟩
        | Body.object dataoutput => some ⟨Except.ok (DoData.object dataoutput, none), trace1⟩

/-- Source method `(hsR *HSRequest) Do()` under the error threshold `errThreshold`, in the
world `w`, with `fuel` passes through a retry loop allowed. -/
def Do (hsR : HSRequest) (errThreshold : Int) (w : World) (fuel : Nat) : Option (Run DoData) :=
  if hsR.loaded = false then
    some ⟨Except.ok (DoData.nil, some (errorsNew "no config loaded")), []⟩
  else if hsR.hasOffset then
    match DoLoopRequest hsR errThreshold w fuel with
    | none => none
    | some r =>
      match r.exit with
      | Except.error p => some ⟨Except.error p, r.trace⟩
      | Except.ok (_, some err) =>
        some ⟨Except.ok (DoData.nil, some (createError "hsR.DoLoopRequest: " err)), r.trace⟩
      | Except.ok (data, none) => some ⟨Except.ok (DoData.pages data, none), r.trace⟩
  else
    Do.loop hsR errThreshold w fuel 0 0 []

/-! ## Path extractor -/

/-- Source function `iterateInterface(data, route, index)`.  An index expression `route[i]`
with `i` out of range panics. -/
def iterateInterface (data : JObj) (route : List String) (index : Nat) :
    Except String (List JVal × Option GoError) :=
  if h : index < route.length then
    match JObj.get data route[index] with
    | some value =>
      if h1 : index = route.length - 1 then
        match value with
        | JVal.arr xs => Except.ok (xs, none)
        | _ => Except.ok ([], some (errorsNew
            ("unable to convert " ++ route[index] ++ " index to []interface\x7b\x7d")))
      else
        match value with
        | JVal.obj m => iterateInterface m route (index + 1)
        | _ =>
          match route[index + 1]? with
          | some seg => Except.ok ([], some (errorsNew
              ("unable to convert " ++ seg ++ " index to map[string]interface\x7b\x7d")))
          | none => Except.error "index out of range"
    | none => Except.ok ([], some (errorsNew (route[index] ++ " does not exist in map")))
  else Except.error "index out of range"
termination_by route.length - index
decreasing_by omega

/-- The loop of `SimplifyInterface` over the documents not yet visited, `base` being the
slice built so far. -/
def SimplifyInterface.loop (route : List String) :
    List JObj → List JVal → Except String (List JVal × Option GoError)
  | [], base => Except.ok (base, none)
  | d :: rest, base =>
    match iterateInterface d route 0 with
    | Except.error p => Except.error p
    | Except.ok (_, some err) =>
      Except.ok ([], some (errorsNew ("iterateInterface: " ++ err.Error)))
    | Except.ok (indexdata, none) => SimplifyInterface.loop route rest (base ++ indexdata)

/-- Source function `SimplifyInterface(data, route)`. -/
def SimplifyInterface (data : List JObj) (route : List String) :
    Except String (List JVal × Option GoError) :=
  SimplifyInterface.loop route data []

/-- Source function `ConvertIFCArrayToIFCMap(in)`.  The results are named, so on the first
element that is not a document the documents converted so far are returned with the error. -/
def ConvertIFCArrayToIFCMap : List JVal → List JObj × Option GoError
  | [] => ([], none)
  | JVal.obj outV :: rest =>
    match ConvertIFCArrayToIFCMap rest with
    | (out, err) => (outV :: out, err)
  | _ :: _ =>
    ([], some (errorsNew "ConvertIFCArrayToIFCMap: unable to convert to IFC Array"))

/-! ## Loading a descriptor -/

/-- The constant `coreURL`. -/
def coreURL : String := "https://api.hubapi.com"

/-- Source function `checkKeyPresence()`, the package variable `hsAPIkey` being a parameter. -/
def checkKeyPresence (hsAPIkey : String) : Bool :=
  if hsAPIkey ≠ "" then true else false

/-- The method `Add` of `url.Values`: the value is appended to the values of the key. -/
def urlValuesAdd : List (String × List String) → String → String → List (String × List String)
  | [], key, value => [(key, [value])]
  | (k, vs) :: rest, key, value =>
    if k = key then (k, vs ++ [value]) :: rest else (k, vs) :: urlValuesAdd rest key value

/-- Insertion of an entry into a list of entries ordered by key. -/
def insertByKey (kv : String × List String) :
    List (String × List String) → List (String × List String)
  | [] => [kv]
  | e :: rest => if kv.1 < e.1 then kv :: e :: rest else e :: insertByKey kv rest

/-- The text `key=value&...` that `url.Values.Encode` gives for keys and values in which
nothing has to be escaped: the keys in increasing order, the values of a key in the order
in which they were added. -/
def encodeValues (params : List (String × List String)) : String :=
  "&".intercalate
    ((params.foldr insertByKey []).flatMap (fun kv => kv.2.map (fun v => kv.1 ++ "=" ++ v)))

/-- The text that `URL.String()` gives for the path appended to `coreURL` and the query
`RawQuery = params.Encode()` when neither the path nor the query holds a character that has
to be escaped.  It is used as a sample rendering where a concrete text is needed; `Load`
takes the rendering as a parameter. -/
def urlString (path : String) (params : List (String × List String)) : String :=
  coreURL ++ (if path ≠ "" ∧ path.data.head? ≠ some '/' then "/" ++ path else path) ++
    (if params = [] then "" else "?" ++ encodeValues params)

/-- Source method `loadRequestHeaders(names, headers)`. -/
def loadRequestHeaders (hsR : HSRequest) (names headers : List String) :
    HSRequest × Option GoError :=
  if names.length ≠ headers.length then
    (hsR, some (errorsNew "header name/value array lengths do not match"))
  else
    ({ hsR with headers := hsR.headers ++ List.zip names headers }, none)

/-- Source method `loadURLParameters(names, parameters)`. -/
def loadURLParameters (hsR : HSRequest) (names parameters : List String) :
    HSRequest × Option GoError :=
  if names.length ≠ parameters.length then
    (hsR, some (errorsNew "header name/parameter array lengths do not match"))
  else
    ({ hsR with paramsURL := (List.foldl (fun acc kv => urlValuesAdd acc kv.1 kv.2)
        hsR.paramsURL (List.zip names parameters)) }, none)

/-- Source method `(hsR *HSRequest) Load(...)`: the descriptor as the call leaves it and
the returned error.  The package variable `hsAPIkey` is a parameter, and so is the
rendering done by package `net/url`: `urlText path params` is the text of
`hsR.URL.String()` for the path appended to `coreURL` once `Do` or `DoLoopRequest` has
stored `params.Encode()` in `RawQuery`. -/
def Load (urlText : String → List (String × List String) → String)
    (hsAPIkey : String) (hsR : HSRequest)
    (method bodyURL body offsetIdentifier returnedOffsetIdentifier totalIndentifier
      limitIdentifier limit : String)
    (headerNames headerValues parameterNames parameterValues : List String)
    (successCode : Int) (useLimitAsOffset : Bool) : HSRequest × Option GoError :=
  if checkKeyPresence hsAPIkey = false then (hsR, some (errorsNew "no API key present"))
  else if successCode = 0 ∨ successCode ≥ 600 then
    (hsR, some (errorsNew "http success code invalid"))
  else
    let hsR1 := { hsR with successCode := successCode }
    if method = "" then (hsR1, some (errorsNew "no http method set"))
    else
      let hsR2 := { hsR1 with httpMethod := method }
      let hsR3 :=
        if offsetIdentifier ≠ "" then
          { hsR2 with offsetIdentifier := offsetIdentifier,
                      returnedOffsetIdentifier := returnedOffsetIdentifier,
                      hasOffset := true, useLimitAsOffset := useLimitAsOffset }
        else hsR2
      let hsR4 :=
        if hsR3.useLimitAsOffset then
          { hsR3 with limit := limit, limitIdentifier := limitIdentifier,
                      totalIndentifier := totalIndentifier,
                      useLimitAsOffset := useLimitAsOffset }
        else hsR3
      match loadRequestHeaders hsR4 headerNames headerValues with
      | (hsR5, some err) => (hsR5, some (createError "loadHeaders: " err))
      | (hsR5, none) =>
        let hsR6 := { hsR5 with URL := urlText "" hsR5.paramsURL }
        if bodyURL = "" then (hsR6, some (errorsNew "no url body set"))
        else
          let hsR7 := { hsR6 with paramsURL := urlValuesAdd [] "hapikey" hsAPIkey,
                                  URL := urlText bodyURL (urlValuesAdd [] "hapikey" hsAPIkey) }
          match loadURLParameters hsR7 parameterNames parameterValues with
          | (hsR8, some err) => (hsR8, some (createError "loadURLParameters: " err))
          | (hsR8, none) =>
            ({ hsR8 with URL := urlText bodyURL hsR8.paramsURL, body := body,
                         loaded := true }, none)

/-! ## Definitions that follow the words of the specification -/

mutual
/-- The field name is a key of the object held by the value, or a key of an object
reachable from it through object-valued fields only (arrays are not entered). -/
def keyReachable : JVal → String → Bool
  | JVal.obj fields, key => (JObj.get fields key).isSome || keyReachableFields fields key
  | _, _ => false
/-- The field name is reachable, in the sense of `keyReachable`, from one of the values
of the fields. -/
def keyReachableFields : List (String × JVal) → String → Bool
  | [], _ => false
  | (_, v) :: rest, key => keyReachable v key || keyReachableFields rest key
end

/-- The value is a JSON number. -/
def JVal.isNum : JVal → Bool
  | JVal.num _ => true
  | _ => false

mutual
/-- Every value stored under the field name, in the object held by the value and in the
objects reachable from it through object-valued fields, is a number. -/
def numericUnder : JVal → String → Bool
  | JVal.obj fields, key => numericUnderFields fields key
  | _, _ => true
/-- The fields of an object satisfy `numericUnder`. -/
def numericUnderFields : List (String × JVal) → String → Bool
  | [], _ => true
  | (k, v) :: rest, key =>
    (if k = key then v.isNum else true) && numericUnder v key && numericUnderFields rest key
end

mutual
/-- The values stored under the field name exactly `depth` objects below the object held
by the value (depth 0 is the object itself), in field order. -/
def occurrencesAt : JVal → String → Nat → List JVal
  | JVal.obj fields, key, depth =>
    match depth with
    | 0 => (JObj.get fields key).toList
    | d + 1 => occurrencesAtFields fields key d
  | _, _, _ => []
/-- The occurrences at the given depth below the values of the fields. -/
def occurrencesAtFields : List (String × JVal) → String → Nat → List JVal
  | [], _, _ => []
  | (_, v) :: rest, key, depth => occurrencesAt v key depth ++ occurrencesAtFields rest key depth
end

/-- The decimal text of a float with its fractional part dropped (truncation toward
zero), as the specification describes the rendering of an offset. -/
def truncateF0 (x : Float64) : String :=
  (if x.neg then "-" else "") ++
    Nat.repr (if 0 ≤ x.exp then x.mant * 2 ^ x.exp.toNat else x.mant / 2 ^ (-x.exp).toNat)

/-- The number of pages the specification predicts in LimitAsOffset mode for a page size
`L` and a total `T`: `max(1, ceil(T / L))`. -/
def pagesNeeded (L T : Nat) : Nat := max 1 ((T + L - 1) / L)

/-- The offset requested for page `k` (counted from 0) in OffsetField mode when the pages
return the offsets `ret 0, ret 1, ...`: "0" for the first page, then the offset returned
by the previous page. -/
def requestedOffset (ret : Nat → String) : Nat → String
  | 0 => "0"
  | k + 1 => ret k

/-- What walking a path through a document gives, in the words of the specification. -/
inductive PathOutcome where
  | array (xs : List JVal)
  | absent (segment : String)
  | notDocument (segment : String)
  | notArray (segment : String)

/-- Walk of a non-empty path as the specification describes it: every segment must be
present, the value at a non-terminal segment must be a nested document, the value at the
terminal segment must be an array. -/
def walkPath : JObj → List String → PathOutcome
  | _, [] => PathOutcome.array []
  | d, [seg] =>
    match JObj.get d seg with
    | none => PathOutcome.absent seg
    | some (JVal.arr xs) => PathOutcome.array xs
    | some _ => PathOutcome.notArray seg
  | d, seg :: next :: rest =>
    match JObj.get d seg with
    | none => PathOutcome.absent seg
    | some (JVal.obj m) => walkPath m (next :: rest)
    | some _ => PathOutcome.notDocument seg

/-- The walk fails: a segment is absent, a non-terminal value is not a document, or the
terminal value is not an array. -/
def PathOutcome.failed : PathOutcome → Prop
  | PathOutcome.array _ => False
  | _ => True

/-! ## Sample inputs -/

/-- A loaded descriptor without pagination whose success code is 200. -/
def sampleGet : HSRequest :=
  { loaded := true, httpMethod := "GET", headers := [], paramsURL := [("hapikey", ["demo"])],
    URL := "https://api.hubapi.com/contacts/v1/lists?hapikey=demo", body := "",
    successCode := 200, hasOffset := false, offsetIdentifier := "",
    returnedOffsetIdentifier := "", useLimitAsOffset := false, limit := "",
    limitIdentifier := "", totalIndentifier := "" }

/-- A world in which every request is answered with the status `code` and an empty body. -/
def answerAlways (code : Int) : World :=
  fun _ _ => Attempt.answered ⟨code, Body.empty⟩

/-- A loaded descriptor paginated in LimitAsOffset mode with limit "10". -/
def sampleLimitPaged : HSRequest :=
  { loaded := true, httpMethod := "GET", headers := [], paramsURL := [("hapikey", ["demo"])],
    URL := "https://api.hubapi.com/deals/v1/deal/paged?hapikey=demo", body := "",
    successCode := 200, hasOffset := true, offsetIdentifier := "offset",
    returnedOffsetIdentifier := "", useLimitAsOffset := true, limit := "10",
    limitIdentifier := "limit", totalIndentifier := "total" }

/-- The same descriptor with the largest limit that `strconv.Atoi` accepts. -/
def hugeLimitPaged : HSRequest := { sampleLimitPaged with limit := "9223372036854775807" }

/-- Page `k` of a listing whose every page carries the field "total" with value `T`. -/
def totalPage (T : Nat) (k : Nat) : JObj :=
  [("total", JVal.num (Float64.ofNat T)), ("page", JVal.num (Float64.ofNat k))]

/-- A server that answers every request with status 200 and the page `totalPage T k`. -/
def totalWorld (T : Nat) : World :=
  fun k _ => Attempt.answered ⟨200, Body.object (totalPage T k)⟩

/-- A loaded descriptor paginated in OffsetField mode. -/
def sampleOffsetPaged : HSRequest :=
  { loaded := true, httpMethod := "GET", headers := [], paramsURL := [("hapikey", ["demo"])],
    URL := "https://api.hubapi.com/contacts/v1/lists/all/contacts/all?hapikey=demo", body := "",
    successCode := 200, hasOffset := true, offsetIdentifier := "vidOffset",
    returnedOffsetIdentifier := "vid-offset", useLimitAsOffset := false, limit := "",
    limitIdentifier := "", totalIndentifier := "" }

/-- Page `k` of a listing that returns the next offsets `offsets`. -/
def offsetPage (offsets : List Nat) (k : Nat) : JObj :=
  [("contacts", JVal.arr [JVal.num (Float64.ofNat k)]),
   ("vid-offset", JVal.num (Float64.ofNat (offsets.getD k 0)))]

/-- A server that answers the first request with status 200 and a page whose next offset
is 10, and every later request with 404. -/
def fatalAfterFirstPage : World :=
  fun k _ =>
    if k = 0 then Attempt.answered ⟨200, Body.object (offsetPage [10] 0)⟩
    else Attempt.answered ⟨404, Body.empty⟩

/-- The JSON number `n`. -/
def jnum (n : Nat) : JVal := JVal.num (Float64.ofNat n)

/-- The documents `[{"results":{"items":[1,2]}}, {"results":{"items":[3]}}]`. -/
def sampleDocs : List JObj :=
  [[("results", JVal.obj [("items", JVal.arr [jnum 1, jnum 2])])],
   [("results", JVal.obj [("items", JVal.arr [jnum 3])])]]

/-- The documents `[{"results":{"items":[1]}}, {"results":{}}]`: the second lacks "items". -/
def brokenDocs : List JObj :=
  [[("results", JVal.obj [("items", JVal.arr [jnum 1])])],
   [("results", JVal.obj [])]]

/-- The zero value of `HSRequest`, a descriptor on which `Load` has not been called. -/
def emptyRequest : HSRequest :=
  { loaded := false, httpMethod := "", headers := [], paramsURL := [], URL := "", body := "",
    successCode := 0, hasOffset := false, offsetIdentifier := "",
    returnedOffsetIdentifier := "", useLimitAsOffset := false, limit := "",
    limitIdentifier := "", totalIndentifier := "" }

/-- The document `{"a":{"b":{"off":1}},"c":{"off":2}}`, fields visited in this order. -/
def nestedDoc : JObj :=
  [("a", JVal.obj [("b", JVal.obj [("off", jnum 1)])]), ("c", JVal.obj [("off", jnum 2)])]

/-- The document `{"list":[{"off":5}],"meta":{"page":{"off":7}}}`. -/
def arrayDoc : JObj :=
  [("list", JVal.arr [JVal.obj [("off", jnum 5)]]),
   ("meta", JVal.obj [("page", JVal.obj [("off", jnum 7)])])]

/-- A server that answers every request with status 200 and a page without a total. -/
def noTotalWorld : World :=
  fun k _ => Attempt.answered ⟨200, Body.object [("page", jnum k)]⟩

/-- A server that looks at the URL only: a request for a URL listed in `pages` is answered
with status 200 and the document listed with it, a request for any other URL with 404. -/
def urlServer (pages : List (String × JObj)) : World :=
  fun _ url =>
    match pages.lookup url with
    | some doc => Attempt.answered ⟨200, Body.object doc⟩
    | none => Attempt.answered ⟨404, Body.empty⟩

/-- A page whose next offset lies two objects below the top level:
`{"contacts":[],"paging":{"next":{"vid-offset":n}}}`. -/
def nestedOffsetPage (n : Nat) : JObj :=
  [("contacts", JVal.arr []),
   ("paging", JVal.obj [("next", JVal.obj [("vid-offset", JVal.num (Float64.ofNat n))])])]

/-! ## Lemmas: strconv and formatting -/

/-- A decimal digit is printed as an ASCII digit character whose code is 48 plus the digit. -/
theorem digitChar_isDigit (d : Nat) (h : d < 10) :
    (Nat.digitChar d).isDigit = true ∧ (Nat.digitChar d).toNat - 48 = d := by
  interval_cases d <;> decide

/-- Parsing the digits that `Nat.toDigitsCore` puts in front of `ds` is parsing `ds` with the
accumulator set to the number printed. -/
theorem parseDigits_toDigitsCore (fuel : Nat) :
    ∀ (n : Nat) (ds : List Char), n < fuel →
      parseDigits (Nat.toDigitsCore 10 fuel n ds) 0 = parseDigits ds n := by
  induction fuel with
  | zero => intro n ds h; omega
  | succ fuel ih =>
    intro n ds h
    have hd := digitChar_isDigit (n % 10) (Nat.mod_lt _ (by decide))
    simp only [Nat.toDigitsCore]
    by_cases h0 : n / 10 = 0
    · simp only [h0, if_true, parseDigits, hd.1, hd.2]
      congr 1
      omega
    · simp only [h0, if_false]
      rw [ih (n / 10) _ (by omega)]
      simp only [parseDigits, hd.1, hd.2, if_true]
      congr 1
      omega

/-- Parsing the decimal digits of `n` gives `n` back. -/
theorem parseDigits_toDigits (n : Nat) : parseDigits (Nat.toDigits 10 n) 0 = some n := by
  rw [Nat.toDigits, parseDigits_toDigitsCore (n + 1) n [] (by omega)]
  rfl

/-- The text printed by `Nat.toDigitsCore` with fuel left starts with a digit. -/
theorem toDigitsCore_head (fuel : Nat) :
    ∀ (n : Nat) (ds : List Char),
      ∃ c cs, Nat.toDigitsCore 10 (fuel + 1) n ds = c :: cs ∧ c.isDigit = true := by
  induction fuel with
  | zero =>
    intro n ds
    have hd := digitChar_isDigit (n % 10) (Nat.mod_lt _ (by decide))
    refine ⟨Nat.digitChar (n % 10), ds, ?_, hd.1⟩
    by_cases h0 : n / 10 = 0 <;> simp [Nat.toDigitsCore, h0]
  | succ fuel ih =>
    intro n ds
    have hd := digitChar_isDigit (n % 10) (Nat.mod_lt _ (by decide))
    rw [Nat.toDigitsCore]
    by_cases h0 : n / 10 = 0
    · exact ⟨Nat.digitChar (n % 10), ds, by simp [h0], hd.1⟩
    · simp only [h0, if_false]
      exact ih _ _

/-- Reading the digits that `Nat.toDigitsCore` puts in front of `ds` is reading `ds` with the
accumulator set to the number printed, as long as that number fits `uint64`. -/
theorem parseUint_toDigitsCore (fuel : Nat) :
    ∀ (n : Nat) (ds : List Char), n < fuel → n ≤ 18446744073709551615 →
      parseUint (Nat.toDigitsCore 10 fuel n ds) 0 = parseUint ds n := by
  induction fuel with
  | zero => intro n ds h; omega
  | succ fuel ih =>
    intro n ds h hn
    have hd := digitChar_isDigit (n % 10) (Nat.mod_lt _ (by decide))
    simp only [Nat.toDigitsCore]
    by_cases h0 : n / 10 = 0
    · have h1 : ¬ (18446744073709551615 < 0 * 10 + n % 10) := by omega
      have h2 : 0 * 10 + n % 10 = n := by omega
      have h4 : ¬ (18446744073709551615 < n) := by omega
      have h5 : n % 10 = n := by omega
      simp only [h0, if_true, parseUint, hd.1, hd.2]
      simp [h5, h4]
    · simp only [h0, if_false]
      rw [ih (n / 10) _ (by omega) (by omega)]
      have h1 : ¬ (1844674407370955162 ≤ n / 10) := by omega
      have h2 : ¬ (18446744073709551615 < n / 10 * 10 + n % 10) := by omega
      have h3 : n / 10 * 10 + n % 10 = n := by omega
      have h4 : ¬ (18446744073709551615 < n) := by omega
      simp only [parseUint, hd.1, hd.2, if_true, h1, if_false, h3, h4]

/-- Reading the decimal digits of a number that fits `uint64` gives the number back. -/
theorem parseUint_toDigits (n : Nat) (hn : n ≤ 18446744073709551615) :
    parseUint (Nat.toDigits 10 n) 0 = (n, none) := by
  rw [Nat.toDigits, parseUint_toDigitsCore (n + 1) n [] (by omega) hn]
  rfl

/-- A value that `parseUint` returns without error is the unbounded value of the digits
and fits `uint64`. -/
theorem parseUint_sound : ∀ (l : List Char) (a v : Nat), a ≤ 18446744073709551615 →
    parseUint l a = (v, none) → parseDigits l a = some v ∧ v ≤ 18446744073709551615
  | [], a, v, ha, h => by
    simp only [parseUint, Prod.mk.injEq, and_true] at h
    subst h
    exact ⟨rfl, ha⟩
  | c :: cs, a, v, _, h => by
    by_cases hc : c.isDigit = true
    · by_cases h1 : 1844674407370955162 ≤ a
      · simp [parseUint, hc, h1] at h
      · by_cases h2 : 18446744073709551615 < a * 10 + (c.toNat - 48)
        · simp [parseUint, hc, h1, h2] at h
        · simp only [parseUint, hc, h1, h2, if_true, if_false] at h
          have := parseUint_sound cs _ v (by omega) h
          simpa [parseDigits, hc] using this
    · simp [parseUint, hc] at h

/-- On a run of digits `parseUint` reports no syntax error. -/
theorem parseUint_digits : ∀ (l : List Char) (a v : Nat),
    parseDigits l a = some v → (parseUint l a).2 ≠ some NumErr.invalid
  | [], _, _, _ => by simp [parseUint]
  | c :: cs, a, v, h => by
    by_cases hc : c.isDigit = true
    · simp only [parseDigits, hc, if_true] at h
      by_cases h1 : 1844674407370955162 ≤ a
      · simp [parseUint, hc, h1]
      · by_cases h2 : 18446744073709551615 < a * 10 + (c.toNat - 48)
        · simp [parseUint, hc, h1, h2]
        · simp only [parseUint, hc, h1, h2, if_true, if_false]
          exact parseUint_digits cs _ v h
    · simp [parseDigits, hc] at h

/-- The value that `parseUint` returns with a range error is 2^64 - 1. -/
theorem parseUint_range : ∀ (l : List Char) (a v : Nat),
    parseUint l a = (v, some NumErr.outOfRange) → v = 18446744073709551615
  | [], _, _, h => by simp [parseUint] at h
  | c :: cs, a, v, h => by
    by_cases hc : c.isDigit = true
    · by_cases h1 : 1844674407370955162 ≤ a
      · simp only [parseUint, hc, h1, if_true, Prod.mk.injEq] at h
        exact h.1.symm
      · by_cases h2 : 18446744073709551615 < a * 10 + (c.toNat - 48)
        · simp only [parseUint, hc, h1, h2, if_true, if_false, Prod.mk.injEq] at h
          exact h.1.symm
        · simp only [parseUint, hc, h1, h2, if_true, if_false] at h
          exact parseUint_range cs _ v h
    · simp [parseUint, hc] at h

/-- The decimal digits of a number beyond `uint64` are a range error. -/
theorem parseUint_toDigits_large (n : Nat) (hn : 18446744073709551615 < n) :
    parseUint (Nat.toDigits 10 n) 0 = (18446744073709551615, some NumErr.outOfRange) := by
  have hp := parseDigits_toDigits n
  have hne := parseUint_digits _ _ _ hp
  rcases hr : parseUint (Nat.toDigits 10 n) 0 with ⟨v, e⟩
  rw [hr] at hne
  cases e with
  | none =>
    have := parseUint_sound _ _ _ (by decide) hr
    rw [hp] at this
    have hv : n = v := by simpa using this.1
    omega
  | some e =>
    cases e with
    | invalid => exact absurd rfl hne
    | outOfRange => rw [parseUint_range _ _ _ hr]

/-- Round trip: `Atoi` reads the decimal text of a natural number below 2^63 without error. -/
theorem Atoi_repr (n : Nat) (h : n < 9223372036854775808) :
    Atoi (Nat.repr n) = ((n : Int), none) := by
  obtain ⟨c, cs, hcs, hc⟩ := toDigitsCore_head n n []
  have hp := parseUint_toDigits n (by omega)
  have hdata : (Nat.repr n).data = c :: cs := hcs
  rw [Nat.toDigits, hcs] at hp
  have hplus : c ≠ '+' := by rintro rfl; exact absurd hc (by decide)
  have hminus : c ≠ '-' := by rintro rfl; exact absurd hc (by decide)
  simp only [Atoi, hdata]
  simp [hplus, hminus, hp]
  omega

/-- The decimal text of a number from 2^63 upwards is a range error with the value clamped to
the largest `int`. -/
theorem Atoi_repr_large (n : Nat) (h : 9223372036854775808 ≤ n) :
    (Atoi (Nat.repr n)).1 = maxInt := by
  obtain ⟨c, cs, hcs, hc⟩ := toDigitsCore_head n n []
  have hdata : (Nat.repr n).data = c :: cs := hcs
  have hplus : c ≠ '+' := by rintro rfl; exact absurd hc (by decide)
  have hminus : c ≠ '-' := by rintro rfl; exact absurd hc (by decide)
  by_cases hn : n ≤ 18446744073709551615
  · have hp := parseUint_toDigits n hn
    rw [Nat.toDigits, hcs] at hp
    simp only [Atoi, hdata]
    simp [hplus, hminus, hp, h]
  · have hp := parseUint_toDigits_large n (by omega)
    rw [Nat.toDigits, hcs] at hp
    simp only [Atoi, hdata]
    simp [hplus, hminus, hp]

/-- The value that `Atoi` returns together with an error is 0 or a bound of `int`. -/
theorem Atoi_error_value (t : String) (h : (Atoi t).2 ≠ none) :
    (Atoi t).1 = 0 ∨ (Atoi t).1 = maxInt ∨ (Atoi t).1 = minInt := by
  rcases hd : t.data with _ | ⟨c, rest⟩
  · simp [Atoi, hd]
  · simp only [Atoi, hd] at h ⊢
    generalize (if c = '+' ∨ c = '-' then rest else c :: rest) = digits at h ⊢
    by_cases h0 : digits = []
    · simp [h0]
    · simp only [h0, if_false] at h ⊢
      rcases hp : parseUint digits 0 with ⟨un, e⟩
      by_cases he : e = some NumErr.invalid
      · subst he
        simp
      · have hsplit : ∀ (α : Type) (f : α) (g : Nat → α),
            (match (un, e) with
              | (_, some NumErr.invalid) => f
              | (un, _) => g un) = g un := by
          intro α f g
          cases e with
          | none => rfl
          | some e' =>
            cases e' with
            | invalid => exact absurd rfl he
            | outOfRange => rfl
        rw [hp] at h
        rw [hsplit] at h ⊢
        by_cases h1 : decide (c = '-') = false ∧ 9223372036854775808 ≤ un
        · simp [h1]
        · rw [if_neg h1] at h ⊢
          by_cases h2 : decide (c = '-') = true ∧ 9223372036854775808 < un
          · simp [h2]
          · rw [if_neg h2] at h
            exact absurd rfl h

/-- For a non-negative integer `Itoa` prints the decimal text of the natural number. -/
theorem Itoa_natCast (n : Nat) : Itoa (n : Int) = Nat.repr n := by
  have : ¬ ((n : Int) < 0) := by omega
  simp [Itoa, this]

/-- Round trip of `Itoa` and `Atoi` on the non-negative part of the range of `int`. -/
theorem Atoi_Itoa_natCast (n : Nat) (h : n < 9223372036854775808) :
    Atoi (Itoa (n : Int)) = ((n : Int), none) := by
  rw [Itoa_natCast, Atoi_repr n h]

/-- No wrap-around happens on the non-negative part of the range of `int`. -/
theorem wrapInt_of_range (x : Int) (h0 : 0 ≤ x) (h1 : x < 9223372036854775808) :
    wrapInt x = x := by
  unfold wrapInt
  omega

/-- Adding a parsed limit to a printed offset prints the sum, as long as the sum fits `int`. -/
theorem addIntegerToStringInteger_nat (a b : Nat) (s2 : String)
    (h2 : Atoi s2 = ((b : Int), none)) (h : a + b < 9223372036854775808) :
    addIntegerToStringInteger (Itoa (a : Int)) s2 = (Itoa ((a + b : Nat) : Int), none) := by
  have h1 := Atoi_Itoa_natCast a (by omega)
  simp only [addIntegerToStringInteger, h1, h2]
  rw [wrapInt_of_range _ (by omega) (by omega)]
  push_cast
  rfl

/-- The float that holds a natural number is printed as that number. -/
theorem sprintfF0_ofNat (n : Nat) : sprintfF0 (Float64.ofNat n) = Nat.repr n := by
  simp [sprintfF0, Float64.ofNat, roundHalfEven]

/-- A numeric field at the top level of the document is found and printed. -/
theorem iterateSearchForOffset_top (obj : JObj) (pname : String) (x : Float64)
    (h : JObj.get obj pname = some (JVal.num x)) :
    iterateSearchForOffset obj pname = Except.ok (sprintfF0 x) := by
  simp [iterateSearchForOffset, locate, h]
/-- The decimal text of a natural number is not empty. -/
theorem repr_ne_empty (n : Nat) : Nat.repr n ≠ "" := by
  obtain ⟨c, cs, hcs, _⟩ := toDigitsCore_head n n []
  intro h
  have hd : (Nat.repr n).data = c :: cs := hcs
  rw [h] at hd
  exact absurd hd (by simp)

/-- The text printed for a float is never empty, so a numeric field is never taken for "not
found". -/
theorem sprintfF0_ne_empty (x : Float64) : sprintfF0 x ≠ "" := by
  obtain ⟨c, cs, hcs, _⟩ :=
    toDigitsCore_head (roundHalfEven x.mant x.exp) (roundHalfEven x.mant x.exp) []
  have hd : (Nat.repr (roundHalfEven x.mant x.exp)).data = c :: cs := hcs
  intro h
  have h2 := congrArg String.data h
  simp [sprintfF0, String.data_append, hd] at h2


/-! ## Lemmas: the paginator loop -/

/-- The classifier accepts the success code (helper form of the acceptance rule). -/
theorem ErrorCodeHandler_success (hsR : HSRequest) (body : Body) :
    ErrorCodeHandler hsR ⟨hsR.successCode, body⟩ = ⟨true, none, 0⟩ := by
  simp [ErrorCodeHandler]

/-- One pass through the body of `for retry` in LimitAsOffset mode for a page that is
answered with the success code and an object. -/
theorem body_limit_page (hsR : HSRequest) (thr : Int) (w : World) (s : LoopState) (doc : JObj)
    (total : Int) (offset : String)
    (hmode : hsR.useLimitAsOffset = true)
    (hw : w s.attempts (requestURL hsR s.offset) =
      Attempt.answered ⟨hsR.successCode, Body.object doc⟩)
    (htotal : (s.total < 0 ∧
        ∃ t, iterateSearchForOffset doc hsR.totalIndentifier = Except.ok t ∧ (Atoi t).1 = total) ∨
      (¬ s.total < 0 ∧ s.total = total))
    (hadd : addIntegerToStringInteger s.offset hsR.limit = (offset, none)) :
    DoLoopRequest.body hsR thr w s =
      Step.next { data := s.data ++ [doc], errcount := s.errcount, offset := offset,
                  pastoffset := s.offset, total := total, attempts := s.attempts + 1,
                  trace := s.trace ++ [Event.roundTrip (requestURL hsR s.offset)] } false := by
  simp only [DoLoopRequest.body, hw, ErrorCodeHandler_success, hmode, sleepEvents]
  rcases htotal with ⟨hneg, t, ht, hat⟩ | ⟨hpos, heq⟩
  · simp [hneg, ht, hat, hadd]
  · subst heq
    simp [hpos, hadd]

/-- The termination test of LimitAsOffset mode ends the outer loop when the offset has reached
the total. -/
theorem check_limit_stop (hsR : HSRequest) (s : LoopState) (off : Nat)
    (hmode : hsR.useLimitAsOffset = true)
    (hoff : s.offset = Itoa (off : Int)) (hr : off < 9223372036854775808)
    (h : s.total ≤ (off : Int)) :
    DoLoopRequest.check hsR s = Step.next s false := by
  simp only [DoLoopRequest.check, hmode, hoff, Atoi_Itoa_natCast off hr]
  simp [h]

/-- The termination test of LimitAsOffset mode continues while the offset is below the total. -/
theorem check_limit_more (hsR : HSRequest) (s : LoopState) (off : Nat)
    (hmode : hsR.useLimitAsOffset = true)
    (hoff : s.offset = Itoa (off : Int)) (hr : off < 9223372036854775808)
    (h : (off : Int) < s.total) :
    DoLoopRequest.check hsR s = Step.next s true := by
  simp only [DoLoopRequest.check, hmode, hoff, Atoi_Itoa_natCast off hr]
  simp [h]

/-- Unfolding of the loop for a fetched page after which the termination test holds. -/
theorem loop_page_done (hsR : HSRequest) (thr : Int) (w : World) (fuel : Nat)
    (s s1 s2 : LoopState)
    (hb : DoLoopRequest.body hsR thr w s = Step.next s1 false)
    (hc : DoLoopRequest.check hsR s1 = Step.next s2 false) :
    DoLoopRequest.loop hsR thr w (fuel + 1) s = some ⟨Except.ok (s2.data, none), s2.trace⟩ := by
  simp [DoLoopRequest.loop, hb, hc]

/-- Unfolding of the loop for a fetched page after which the termination test does not hold. -/
theorem loop_page_more (hsR : HSRequest) (thr : Int) (w : World) (fuel : Nat)
    (s s1 s2 : LoopState)
    (hb : DoLoopRequest.body hsR thr w s = Step.next s1 false)
    (hc : DoLoopRequest.check hsR s1 = Step.next s2 true) :
    DoLoopRequest.loop hsR thr w (fuel + 1) s = DoLoopRequest.loop hsR thr w fuel s2 := by
  simp [DoLoopRequest.loop, hb, hc]

/-- Invariant of the paginator in LimitAsOffset mode: from a state that has fetched `k` pages
and holds the offset `k * L`, the loop fetches the remaining `j` pages at the offsets `k * L,
(k + 1) * L, ...` and returns. -/
theorem loop_limit_as_offset (hsR : HSRequest) (thr : Int) (w : World) (L T n : Nat)
    (page : Nat → JObj)
    (hmode : hsR.useLimitAsOffset = true)
    (hlimit : Atoi hsR.limit = ((L : Int), none))
    (hw : ∀ k, k < n → w k (requestURL hsR (Itoa ((k * L : Nat) : Int))) =
      Attempt.answered ⟨hsR.successCode, Body.object (page k)⟩)
    (htotal : iterateSearchForOffset (page 0) hsR.totalIndentifier =
      Except.ok (Itoa (T : Int)))
    (hrange : n * L < 9223372036854775808)
    (hstop : T ≤ n * L)
    (hcont : ∀ m, 1 ≤ m → m < n → m * L < T) :
    ∀ (j k fuel : Nat) (s : LoopState), 1 ≤ j → k + j = n → j ≤ fuel →
      s.attempts = k → s.offset = Itoa ((k * L : Nat) : Int) →
      (s.total = -1 ∧ k = 0 ∨ s.total = T) →
      DoLoopRequest.loop hsR thr w fuel s =
        some ⟨Except.ok (s.data ++ (List.range' k j).map page, none),
          s.trace ++ (List.range' k j).map
            (fun i => Event.roundTrip (requestURL hsR (Itoa ((i * L : Nat) : Int))))⟩ := by
  intro j
  induction j with
  | zero => intro _ _ _ h; omega
  | succ j ih =>
    intro k fuel s _ hk hfuel hatt hoff htot
    obtain ⟨fuel, rfl⟩ : ∃ f, fuel = f + 1 := ⟨fuel - 1, by omega⟩
    have hkL : k * L + L ≤ n * L := by
      have : (k + 1) * L ≤ n * L := Nat.mul_le_mul_right L (by omega)
      rwa [Nat.succ_mul] at this
    have hTlt : T < 9223372036854775808 := by omega
    have hbody := body_limit_page hsR thr w s (page k) (T : Int)
      (Itoa ((k * L + L : Nat) : Int)) hmode
      (by rw [hatt, hoff]; exact hw k (by omega))
      (by
        rcases htot with ⟨h1, h0⟩ | h1
        · left
          subst h0
          refine ⟨by omega, _, htotal, ?_⟩
          rw [Atoi_Itoa_natCast T hTlt]
        · right
          exact ⟨by omega, h1⟩)
      (by rw [hoff]; exact addIntegerToStringInteger_nat _ _ _ hlimit (by omega))
    by_cases hj : j = 0
    · subst hj
      have hge : (T : Int) ≤ ((k * L + L : Nat) : Int) := by
        have : k + 1 = n := by omega
        subst this
        rw [Nat.succ_mul] at hstop
        exact_mod_cast hstop
      rw [loop_page_done hsR thr w fuel s _ _ hbody
        (check_limit_stop hsR _ (k * L + L) hmode rfl (by omega) hge)]
      simp [hoff]
    · have hlt : ((k * L + L : Nat) : Int) < (T : Int) := by
        have := hcont (k + 1) (by omega) (by omega)
        rw [Nat.succ_mul] at this
        exact_mod_cast this
      rw [loop_page_more hsR thr w fuel s _ _ hbody
        (check_limit_more hsR _ (k * L + L) hmode rfl (by omega) hlt)]
      rw [ih (k + 1) fuel _ (by omega) (by omega) (by omega) (by simp [hatt])
        (by simp [Nat.succ_mul]) (Or.inr rfl)]
      simp [List.range'_succ, hoff]

/-- One pass through the body of `for retry` in OffsetField mode for a page that is answered
with the success code and an object in which the offset is found. -/
theorem body_offset_page (hsR : HSRequest) (thr : Int) (w : World) (s : LoopState) (doc : JObj)
    (offset : String)
    (hmode : hsR.useLimitAsOffset = false)
    (hw : w s.attempts (requestURL hsR s.offset) =
      Attempt.answered ⟨hsR.successCode, Body.object doc⟩)
    (hloc : iterateSearchForOffset doc hsR.returnedOffsetIdentifier = Except.ok offset)
    (hne : offset ≠ "") :
    DoLoopRequest.body hsR thr w s =
      Step.next { data := s.data ++ [doc], errcount := s.errcount, offset := offset,
                  pastoffset := s.offset, total := s.total, attempts := s.attempts + 1,
                  trace := s.trace ++ [Event.roundTrip (requestURL hsR s.offset)] } false := by
  simp [DoLoopRequest.body, hw, ErrorCodeHandler_success, hmode, sleepEvents, hloc, hne]

/-- The termination test of OffsetField mode ends the outer loop when its condition holds. -/
theorem check_offset_stop (hsR : HSRequest) (s : LoopState)
    (hmode : hsR.useLimitAsOffset = false)
    (h : (s.pastoffset ≠ "0" ∧ s.offset = "0") ∨ s.pastoffset = s.offset) :
    DoLoopRequest.check hsR s = Step.next s false := by
  simp only [DoLoopRequest.check, hmode, if_true]
  rw [if_pos h]

/-- The termination test of OffsetField mode continues when its condition does not hold. -/
theorem check_offset_more (hsR : HSRequest) (s : LoopState)
    (hmode : hsR.useLimitAsOffset = false)
    (h : ¬ ((s.pastoffset ≠ "0" ∧ s.offset = "0") ∨ s.pastoffset = s.offset)) :
    DoLoopRequest.check hsR s = Step.next s true := by
  simp only [DoLoopRequest.check, hmode, if_true]
  rw [if_neg h]

/-- Invariant of the paginator in OffsetField mode: from a state that has fetched `k` pages and
holds the offset to request next, the loop fetches the remaining `j` pages and returns after
the first page that satisfies the termination test. -/
theorem loop_offset_field (hsR : HSRequest) (thr : Int) (w : World) (n : Nat)
    (page : Nat → JObj) (ret : Nat → String)
    (hmode : hsR.useLimitAsOffset = false)
    (hw : ∀ k, k < n → w k (requestURL hsR (requestedOffset ret k)) =
      Attempt.answered ⟨hsR.successCode, Body.object (page k)⟩)
    (hloc : ∀ k, k < n →
      iterateSearchForOffset (page k) hsR.returnedOffsetIdentifier = Except.ok (ret k))
    (hne : ∀ k, k < n → ret k ≠ "")
    (hstop : ∀ k, k + 1 = n →
      (requestedOffset ret k ≠ "0" ∧ ret k = "0") ∨ requestedOffset ret k = ret k)
    (hcont : ∀ k, k + 1 < n →
      ¬ ((requestedOffset ret k ≠ "0" ∧ ret k = "0") ∨ requestedOffset ret k = ret k)) :
    ∀ (j k fuel : Nat) (s : LoopState), 1 ≤ j → k + j = n → j ≤ fuel →
      s.attempts = k → s.offset = requestedOffset ret k →
      DoLoopRequest.loop hsR thr w fuel s =
        some ⟨Except.ok (s.data ++ (List.range' k j).map page, none),
          s.trace ++ (List.range' k j).map
            (fun i => Event.roundTrip (requestURL hsR (requestedOffset ret i)))⟩ := by
  intro j
  induction j with
  | zero => intro _ _ _ h; omega
  | succ j ih =>
    intro k fuel s _ hk hfuel hatt hoff
    obtain ⟨fuel, rfl⟩ : ∃ f, fuel = f + 1 := ⟨fuel - 1, by omega⟩
    have hbody := body_offset_page hsR thr w s (page k) (ret k) hmode
      (by rw [hatt, hoff]; exact hw k (by omega)) (hloc k (by omega)) (hne k (by omega))
    by_cases hj : j = 0
    · subst hj
      rw [loop_page_done hsR thr w fuel s _ _ hbody
        (check_offset_stop hsR _ hmode (by simpa [hoff] using hstop k (by omega)))]
      simp [hoff]
    · rw [loop_page_more hsR thr w fuel s _ _ hbody
        (check_offset_more hsR _ hmode (by simpa [hoff] using hcont k (by omega)))]
      rw [ih (k + 1) fuel _ (by omega) (by omega) (by omega) (by simp [hatt])
        (by simp [requestedOffset])]
      simp [List.range'_succ, hoff]

/-- The predicted number of pages reaches the total. -/
theorem pagesNeeded_covers (L T : Nat) (hL : 1 ≤ L) : T ≤ pagesNeeded L T * L := by
  have h1 := Nat.div_add_mod (T + L - 1) L
  have h2 := Nat.mod_lt (T + L - 1) (show L > 0 by omega)
  have h3 : (T + L - 1) / L * L ≤ pagesNeeded L T * L :=
    Nat.mul_le_mul_right L (le_max_right _ _)
  rw [Nat.mul_comm] at h1
  omega

/-- Fewer pages than predicted (but at least one) do not reach the total. -/
theorem pagesNeeded_least (L T m : Nat) (hL : 1 ≤ L) (hm : 1 ≤ m) (h : m < pagesNeeded L T) :
    m * L < T := by
  have hq : m + 1 ≤ (T + L - 1) / L := by
    unfold pagesNeeded at h
    rcases max_cases 1 ((T + L - 1) / L) with ⟨he, _⟩ | ⟨he, _⟩ <;> omega
  have h1 := (Nat.le_div_iff_mul_le (show 0 < L by omega)).mp hq
  rw [Nat.succ_mul] at h1
  omega

/-! ## Lemmas: the path extractor -/

/-- The recursion of `iterateInterface` at index `pre.length` of the route `pre ++ rest`
follows the walk of `rest` described by the specification. -/
theorem iterateInterface_walk (rest : List String) :
    ∀ (pre : List String) (d : JObj), rest ≠ [] →
      match walkPath d rest with
      | PathOutcome.array xs =>
        iterateInterface d (pre ++ rest) pre.length = Except.ok (xs, none)
      | PathOutcome.absent seg =>
        iterateInterface d (pre ++ rest) pre.length =
          Except.ok ([], some (errorsNew (seg ++ " does not exist in map")))
      | PathOutcome.notDocument _ =>
        ∃ e, iterateInterface d (pre ++ rest) pre.length = Except.ok ([], some e)
      | PathOutcome.notArray _ =>
        ∃ e, iterateInterface d (pre ++ rest) pre.length = Except.ok ([], some e) := by
  induction rest with
  | nil => intro _ _ h; exact absurd rfl h
  | cons seg tl ih =>
    intro pre d _
    have hlt : pre.length < (pre ++ seg :: tl).length := by simp
    have hget : (pre ++ seg :: tl)[pre.length] = seg := by
      rw [List.getElem_append_right (le_refl _)]
      simp
    rw [iterateInterface, dif_pos hlt, hget]
    cases tl with
    | nil =>
      have hlast : pre.length = (pre ++ [seg]).length - 1 := by simp
      cases hg : JObj.get d seg with
      | none => simp [walkPath, hg]
      | some v =>
        simp only [walkPath, hg]
        rw [dif_pos hlast]
        cases v <;> simp
    | cons next rest =>
      have hnl : ¬ (pre.length = (pre ++ seg :: next :: rest).length - 1) := by
        simp
      have hnext : (pre ++ seg :: next :: rest)[pre.length + 1]? = some next := by
        rw [List.getElem?_append_right (by omega)]
        simp
      cases hg : JObj.get d seg with
      | none => simp [walkPath, hg]
      | some v =>
        simp only [walkPath, hg]
        rw [dif_neg hnl]
        cases v with
        | obj m =>
          have := ih (pre ++ [seg]) m (by simp)
          simpa using this
        | null => simp [hnext]
        | bool b => simp [hnext]
        | num x => simp [hnext]
        | str s => simp [hnext]
        | arr xs => simp [hnext]

/-- The call `iterateInterface(d, route, 0)` follows the walk of the whole route. -/
theorem iterateInterface_walk_zero (d : JObj) (route : List String) (hr : route ≠ []) :
    match walkPath d route with
    | PathOutcome.array xs => iterateInterface d route 0 = Except.ok (xs, none)
    | PathOutcome.absent seg =>
      iterateInterface d route 0 =
        Except.ok ([], some (errorsNew (seg ++ " does not exist in map")))
    | PathOutcome.notDocument _ => ∃ e, iterateInterface d route 0 = Except.ok ([], some e)
    | PathOutcome.notArray _ => ∃ e, iterateInterface d route 0 = Except.ok ([], some e) := by
  simpa using iterateInterface_walk route [] d hr

/-- The loop of `SimplifyInterface` appends the terminal arrays to `base` when every walk ends
in an array. -/
theorem SimplifyInterface_loop_arrays (route : List String) (hr : route ≠ []) :
    ∀ (docs : List JObj) (arrs : List (List JVal)) (base : List JVal),
      List.Forall₂ (fun d xs => walkPath d route = PathOutcome.array xs) docs arrs →
      SimplifyInterface.loop route docs base = Except.ok (base ++ arrs.flatten, none) := by
  intro docs arrs base h
  induction h generalizing base with
  | nil => simp [SimplifyInterface.loop]
  | @cons d xs _ _ hd _ ih =>
    have := iterateInterface_walk_zero d route hr
    rw [hd] at this
    simp only [SimplifyInterface.loop, this]
    rw [ih]
    simp

/-- The loop of `SimplifyInterface` always returns for a non-empty route: with an error exactly
when some walk fails, then without values, and with the message of an absent segment when the
first failing walk lacks one. -/
theorem SimplifyInterface_loop_outcome (route : List String) (hr : route ≠ []) :
    ∀ (docs : List JObj) (base : List JVal),
      ∃ vals err, SimplifyInterface.loop route docs base = Except.ok (vals, err) ∧
        (err ≠ none ↔ ∃ d ∈ docs, (walkPath d route).failed) ∧
        (err ≠ none → vals = []) ∧
        (∀ pre d post seg, docs = pre ++ d :: post →
          (∀ p ∈ pre, ¬ (walkPath p route).failed) →
          walkPath d route = PathOutcome.absent seg →
          err = some (errorsNew ("iterateInterface: " ++ seg ++ " does not exist in map"))) := by
  intro docs
  induction docs with
  | nil =>
    intro base
    refine ⟨base, none, rfl, by simp, by simp, ?_⟩
    intro pre d post seg h
    simp at h
  | cons d rest ih =>
    intro base
    have hw := iterateInterface_walk_zero d route hr
    have hfail : ∀ e, iterateInterface d route 0 = Except.ok ([], some e) →
        (walkPath d route).failed →
        (∀ seg, walkPath d route = PathOutcome.absent seg →
          e = errorsNew (seg ++ " does not exist in map")) →
        ∃ vals err, SimplifyInterface.loop route (d :: rest) base = Except.ok (vals, err) ∧
          (err ≠ none ↔ ∃ d' ∈ d :: rest, (walkPath d' route).failed) ∧
          (err ≠ none → vals = []) ∧
          (∀ pre d' post seg, d :: rest = pre ++ d' :: post →
            (∀ p ∈ pre, ¬ (walkPath p route).failed) →
            walkPath d' route = PathOutcome.absent seg →
            err = some (errorsNew ("iterateInterface: " ++ seg ++ " does not exist in map"))) := by
      intro e he hf habs
      refine ⟨[], some (errorsNew ("iterateInterface: " ++ e.Error)), ?_, ?_, ?_, ?_⟩
      · simp [SimplifyInterface.loop, he]
      · simp only [ne_eq, reduceCtorEq, not_false_eq_true, true_iff]
        exact ⟨d, List.mem_cons_self _ _, hf⟩
      · intro _; rfl
      · intro pre d' post seg hsplit hpre hseg
        cases pre with
        | nil =>
          simp only [List.nil_append, List.cons.injEq] at hsplit
          obtain ⟨rfl, _⟩ := hsplit
          rw [habs seg hseg]
          simp [errorsNew, GoError.Error, String.append_assoc]
        | cons p pre' =>
          simp only [List.cons_append, List.cons.injEq] at hsplit
          obtain ⟨rfl, _⟩ := hsplit
          exact absurd hf (hpre _ (List.mem_cons_self _ _))
    cases hwk : walkPath d route with
    | array xs =>
      rw [hwk] at hw
      obtain ⟨vals, err, h1, h2, h3, h4⟩ := ih (base ++ xs)
      refine ⟨vals, err, ?_, ?_, h3, ?_⟩
      · simp [SimplifyInterface.loop, hw, h1]
      · rw [h2]
        constructor
        · rintro ⟨d', hd', hf⟩
          exact ⟨d', List.mem_cons_of_mem _ hd', hf⟩
        · rintro ⟨d', hd', hf⟩
          rcases List.mem_cons.mp hd' with rfl | hd'
          · rw [hwk] at hf
            exact absurd hf (by simp [PathOutcome.failed])
          · exact ⟨d', hd', hf⟩
      · intro pre d' post seg hsplit hpre hseg
        cases pre with
        | nil =>
          simp only [List.nil_append, List.cons.injEq] at hsplit
          obtain ⟨rfl, _⟩ := hsplit
          rw [hwk] at hseg
          exact absurd hseg (by simp)
        | cons p pre' =>
          simp only [List.cons_append, List.cons.injEq] at hsplit
          obtain ⟨rfl, hrest⟩ := hsplit
          exact h4 pre' d' post seg hrest
            (fun q hq => hpre q (List.mem_cons_of_mem _ hq)) hseg
    | absent seg =>
      rw [hwk] at hw
      exact hfail _ hw (by simp [hwk, PathOutcome.failed])
        (fun seg' h => by rw [hwk] at h; cases h; rfl)
    | notDocument seg =>
      rw [hwk] at hw
      obtain ⟨e, he⟩ := hw
      exact hfail e he (by simp [hwk, PathOutcome.failed])
        (fun seg' h => by rw [hwk] at h; cases h)
    | notArray seg =>
      rw [hwk] at hw
      obtain ⟨e, he⟩ := hw
      exact hfail e he (by simp [hwk, PathOutcome.failed])
        (fun seg' h => by rw [hwk] at h; cases h)

/-- A walk fails in exactly one of three ways. -/
theorem PathOutcome.failed_iff (o : PathOutcome) :
    o.failed ↔ (∃ seg, o = PathOutcome.absent seg) ∨ (∃ seg, o = PathOutcome.notDocument seg) ∨
      (∃ seg, o = PathOutcome.notArray seg) := by
  cases o <;> simp [PathOutcome.failed]

/-! ## Theorems: status classifier -/

/-- C1: a response whose status equals the declared success code is accepted by
`ErrorCodeHandler`, whatever the code is: no error is returned (and no sleep is made). -/
theorem ErrorCodeHandler_accepts_success_code (c : Int) (hsR : HSRequest) (body : Body)
    (h : hsR.successCode = c) :
    (ErrorCodeHandler hsR ⟨c, body⟩).err = none ∧
      ErrorCodeHandler hsR ⟨c, body⟩ = ⟨true, none, 0⟩ := by
  subst h
  simp [ErrorCodeHandler]

/-- Witness of C1: a response with status 404 is accepted when the declared success code
is 404. -/
theorem ErrorCodeHandler_accepts_success_code_witness :
    (ErrorCodeHandler { sampleGet with successCode := 404 } ⟨404, Body.empty⟩).err = none ∧
      ErrorCodeHandler { sampleGet with successCode := 404 } ⟨404, Body.empty⟩ = ⟨true, none, 0⟩ :=
  ErrorCodeHandler_accepts_success_code 404 { sampleGet with successCode := 404 } Body.empty rfl

/-- C2: for a status different from the success code `ErrorCodeHandler` is the rule
table: 401, 403, 404, 415 are fatal (retry = false, an error); 429 is the sentinel with
retry = false; 500 is a retry after a sleep of 1 second; 502 and 504 are a retry after a
sleep of 2 seconds; any other code is a retry without sleep and an "unhandled code" error. -/
theorem ErrorCodeHandler_rule_table (hsR : HSRequest) (resp : Response)
    (h : resp.StatusCode ≠ hsR.successCode) :
    (resp.StatusCode = 401 →
        ErrorCodeHandler hsR resp = ⟨false, some (errorsNew "401 authentication invalid"), 0⟩) ∧
    (resp.StatusCode = 403 →
        ErrorCodeHandler hsR resp =
          ⟨false, some (errorsNew "403 authentication permissions insufficient"), 0⟩) ∧
    (resp.StatusCode = 404 →
        ErrorCodeHandler hsR resp = ⟨false, some (errorsNew "404 unkown endpoint"), 0⟩) ∧
    (resp.StatusCode = 415 →
        ErrorCodeHandler hsR resp = ⟨false, some (errorsNew "415 unsupported media type"), 0⟩) ∧
    (resp.StatusCode = 429 →
        ErrorCodeHandler hsR resp = ⟨false, some ErrExcessRequest, 0⟩) ∧
    (resp.StatusCode = 500 →
        ErrorCodeHandler hsR resp = ⟨true, some (errorsNew "internal server error"), 1⟩) ∧
    (resp.StatusCode = 502 ∨ resp.StatusCode = 504 →
        ErrorCodeHandler hsR resp =
          ⟨true, some (errorsNew (Itoa resp.StatusCode ++ " timeout")), 2⟩) ∧
    (resp.StatusCode ∉ [401, 403, 404, 415, 429, 500, 502, 504] →
        ErrorCodeHandler hsR resp =
          ⟨true, some (errorsNew ("unhandled code: " ++ Itoa resp.StatusCode)), 0⟩) := by
  refine ⟨?_, ?_, ?_, ?_, ?_, ?_, ?_, ?_⟩
  · intro hc; rw [hc] at h; simp [ErrorCodeHandler, h, hc]
  · intro hc; rw [hc] at h; simp [ErrorCodeHandler, h, hc]
  · intro hc; rw [hc] at h; simp [ErrorCodeHandler, h, hc]
  · intro hc; rw [hc] at h; simp [ErrorCodeHandler, h, hc]
  · intro hc; rw [hc] at h; simp [ErrorCodeHandler, h, hc]
  · intro hc; rw [hc] at h; simp [ErrorCodeHandler, h, hc]
  · intro hc
    rcases hc with hc | hc <;> rw [hc] at h <;> simp [ErrorCodeHandler, h, hc]
  · intro hc
    simp only [List.mem_cons, List.mem_singleton, not_or, List.not_mem_nil, or_false] at hc
    obtain ⟨h1, h2, h3, h4, h5, h6, h7, h8⟩ := hc
    simp [ErrorCodeHandler, h, h1, h2, h3, h4, h5, h6, h7, h8]

/-- Witness of C2: with success code 200, the status 503 is an unhandled code. -/
theorem ErrorCodeHandler_rule_table_witness :
    ErrorCodeHandler sampleGet ⟨503, Body.empty⟩ =
      ⟨true, some (errorsNew ("unhandled code: " ++ Itoa 503)), 0⟩ :=
  (ErrorCodeHandler_rule_table sampleGet ⟨503, Body.empty⟩ (by decide)).2.2.2.2.2.2.2 (by decide)

/-! ## Theorems: single-request executor -/

/-- What `Do` makes of a first response that the classifier answers with `retry = false`
and an error: one round trip, and the error is returned only when the counter (now 1)
has reached the threshold; below the threshold the loop just ends and `Do` returns
`(nil, nil)`. -/
theorem Do_first_response_stops (hsR : HSRequest) (errThreshold : Int) (w : World)
    (fuel : Nat) (resp : Response) (err : GoError)
    (hl : hsR.loaded = true) (ho : hsR.hasOffset = false)
    (hw : w 0 hsR.URL = Attempt.answered resp)
    (hc : ErrorCodeHandler hsR resp = ⟨false, some err, 0⟩) :
    Do hsR errThreshold w (fuel + 1) =
      some ⟨Except.ok (DoData.nil,
          if 1 ≥ errThreshold then some (createError "hsR.ErrorCodeHandler: " err) else none),
        [Event.roundTrip hsR.URL]⟩ := by
  simp only [Do, hl, ho, Do.loop, hw, hc, sleepEvents]
  by_cases h1 : (1 : Int) ≥ errThreshold
  · simp [h1]
  · simp [h1]

/-- The error that `Do` returns for a 429 response is never the sentinel: for every
threshold the run is one round trip and the returned error is either absent or a
value made by `createError`. -/
theorem Do_rate_limited_general (hsR : HSRequest) (errThreshold : Int) (w : World)
    (fuel : Nat) (body : Body)
    (hl : hsR.loaded = true) (ho : hsR.hasOffset = false) (hs : hsR.successCode ≠ 429)
    (hw : w 0 hsR.URL = Attempt.answered ⟨429, body⟩) :
    ∃ r, Do hsR errThreshold w (fuel + 1) = some r ∧
      r.trace = [Event.roundTrip hsR.URL] ∧
      r.exit ≠ Except.ok (DoData.nil, some ErrExcessRequest) ∧
      (1 ≥ errThreshold → r.exit = Except.ok (DoData.nil,
          some (errorsNew "hsR.ErrorCodeHandler: 429 rate limit requests exceeded"))) ∧
      (1 < errThreshold → r.exit = Except.ok (DoData.nil, none)) := by
  have hc : ErrorCodeHandler hsR ⟨429, body⟩ = ⟨false, some ErrExcessRequest, 0⟩ := by
    simp [ErrorCodeHandler, Ne.symm hs]
  refine ⟨_, Do_first_response_stops hsR errThreshold w fuel _ _ hl ho hw hc, rfl, ?_, ?_, ?_⟩
  · by_cases h1 : (1 : Int) ≥ errThreshold
    · simp [h1, createError, errorsNew, ErrExcessRequest]
    · simp [h1]
  · intro h1
    simp only [h1, if_true]
    rfl
  · intro h1
    have : ¬ ((1 : Int) ≥ errThreshold) := by omega
    simp [this]

/-- C3 (the code at the failing inputs): for a 429 response and threshold 1 `Do` makes one
round trip and returns an error made by `createError`, which is not the value
`ErrExcessRequest`; with threshold 2 it makes one round trip and returns no error at all. -/
theorem Do_rate_limited_not_sentinel :
    Do sampleGet 1 (answerAlways 429) 5 =
        some ⟨Except.ok (DoData.nil,
            some (GoError.fresh "hsR.ErrorCodeHandler: 429 rate limit requests exceeded")),
          [Event.roundTrip sampleGet.URL]⟩ ∧
      GoError.fresh "hsR.ErrorCodeHandler: 429 rate limit requests exceeded" ≠ ErrExcessRequest ∧
      Do sampleGet 2 (answerAlways 429) 5 =
        some ⟨Except.ok (DoData.nil, none), [Event.roundTrip sampleGet.URL]⟩ :=
  ⟨rfl, by decide, rfl⟩

/-- For every threshold a fatal or rate-limited first response ends `Do` after one round
trip; the error is returned exactly when the threshold is at most 1. -/
theorem Do_fatal_general (hsR : HSRequest) (errThreshold : Int) (w : World)
    (fuel : Nat) (resp : Response)
    (hl : hsR.loaded = true) (ho : hsR.hasOffset = false)
    (hs : resp.StatusCode ≠ hsR.successCode)
    (hm : resp.StatusCode ∈ [401, 403, 404, 415, 429])
    (hw : w 0 hsR.URL = Attempt.answered resp) :
    ∃ r, Do hsR errThreshold w (fuel + 1) = some r ∧
      r.trace = [Event.roundTrip hsR.URL] ∧
      (1 ≥ errThreshold → ∃ e, r.exit = Except.ok (DoData.nil, some e)) ∧
      (1 < errThreshold → r.exit = Except.ok (DoData.nil, none)) := by
  have hc : ∃ err, ErrorCodeHandler hsR resp = ⟨false, some err, 0⟩ := by
    simp only [List.mem_cons, List.mem_singleton, List.not_mem_nil, or_false] at hm
    rcases hm with hm | hm | hm | hm | hm <;> rw [hm] at hs <;>
      simp [ErrorCodeHandler, hs, hm]
  obtain ⟨err, hc⟩ := hc
  refine ⟨_, Do_first_response_stops hsR errThreshold w fuel _ _ hl ho hw hc, rfl, ?_, ?_⟩
  · intro h1
    simp [h1]
  · intro h1
    have : ¬ ((1 : Int) ≥ errThreshold) := by omega
    simp [this]

/-- C4 (the code at the failing input): with threshold 2 and a 404 response `Do` makes
one round trip and returns `(nil, nil)`: no data and no error. -/
theorem Do_fatal_swallowed_below_threshold :
    Do sampleGet 2 (answerAlways 404) 5 =
      some ⟨Except.ok (DoData.nil, none), [Event.roundTrip sampleGet.URL]⟩ :=
  rfl

/-- The loop of `Do` when every request is answered with 500: from a counter `errcount`
that is `r` short of the threshold it makes `r` more round trips, each followed by a sleep
of one second, and returns the wrapped error. -/
theorem Do_loop_all_500 (hsR : HSRequest) (threshold : Nat) (w : World)
    (hs : hsR.successCode ≠ 500)
    (hw : ∀ n, ∃ body, w n hsR.URL = Attempt.answered ⟨500, body⟩) :
    ∀ (r fuel : Nat) (errcount : Int) (attempts : Nat) (trace : List Event),
      1 ≤ r → errcount + r = threshold → r ≤ fuel →
      Do.loop hsR threshold w fuel errcount attempts trace =
        some ⟨Except.ok (DoData.nil,
            some (createError "hsR.ErrorCodeHandler: " (errorsNew "internal server error"))),
          trace ++ (List.replicate r [Event.roundTrip hsR.URL, Event.sleep 1]).flatten⟩ := by
  intro r
  induction r with
  | zero => intro _ _ _ _ h; omega
  | succ r ih =>
    intro fuel errcount attempts trace _ hsum hfuel
    obtain ⟨fuel, rfl⟩ : ∃ f, fuel = f + 1 := ⟨fuel - 1, by omega⟩
    obtain ⟨body, hb⟩ := hw attempts
    have hc : ErrorCodeHandler hsR ⟨500, body⟩ =
        ⟨true, some (errorsNew "internal server error"), 1⟩ := by
      simp [ErrorCodeHandler, Ne.symm hs]
    simp only [Do.loop, hb, hc, sleepEvents]
    by_cases hr : r = 0
    · subst hr
      have : errcount + 1 ≥ (threshold : Int) := by push_cast at hsum; omega
      simp [this]
    · have hlt : ¬ (errcount + 1 ≥ (threshold : Int)) := by push_cast at hsum; omega
      simp only [hlt, if_false, if_true]
      rw [ih fuel (errcount + 1) (attempts + 1) _ (by omega) (by push_cast at hsum ⊢; omega)
        (by omega)]
      simp [List.replicate_succ]

/-- C5: with error threshold `T ≥ 1`, a loaded descriptor without pagination whose
success code is not 500, and a server that answers every request with 500, `Do` returns
(given at least `T` units of fuel) after exactly `T` round trips, each followed by a sleep
of one second, with the wrapped classifier error. -/
theorem Do_all_500_exactly_threshold_round_trips (hsR : HSRequest) (T : Nat) (w : World)
    (fuel : Nat) (hT : 1 ≤ T)
    (hl : hsR.loaded = true) (ho : hsR.hasOffset = false) (hs : hsR.successCode ≠ 500)
    (hw : ∀ n, ∃ body, w n hsR.URL = Attempt.answered ⟨500, body⟩) (hfuel : T ≤ fuel) :
    Do hsR T w fuel =
      some ⟨Except.ok (DoData.nil,
          some (errorsNew "hsR.ErrorCodeHandler: internal server error")),
        (List.replicate T [Event.roundTrip hsR.URL, Event.sleep 1]).flatten⟩ := by
  simp only [Do, hl, ho]
  rw [Do_loop_all_500 hsR T w hs hw T fuel 0 0 [] hT (by simp) hfuel]
  simp [createError, errorsNew, GoError.Error]

/-- Witness of C5: threshold 3, every answer 500: three round trips, three sleeps of one
second, and the wrapped error. -/
theorem Do_all_500_exactly_threshold_round_trips_witness :
    Do sampleGet (3 : Nat) (answerAlways 500) 3 =
      some ⟨Except.ok (DoData.nil,
          some (errorsNew "hsR.ErrorCodeHandler: internal server error")),
        (List.replicate 3 [Event.roundTrip sampleGet.URL, Event.sleep 1]).flatten⟩ :=
  Do_all_500_exactly_threshold_round_trips sampleGet 3 (answerAlways 500) 3 (by decide)
    rfl rfl (by decide) (fun _ => ⟨Body.empty, rfl⟩) (by decide)

/-! ## Theorems: paginator -/

/-- C6 as stated fails when the total does not fit a 64-bit `int`: with limit
9223372036854775807 and a first page carrying total = 9223372036854775808 (every page
answered with the success code and an object), the claim predicts
max(1, ceil(T / L)) = 2 round trips, but `strconv.Atoi` clamps the total to
9223372036854775807 and `DoLoopRequest` returns after one round trip, for the URL ending in
`&offset=0`, with one document. -/
theorem DoLoopRequest_limit_as_offset_counterexample :
    (1 ≤ 9223372036854775807 ∧
      Atoi hugeLimitPaged.limit = (9223372036854775807, none) ∧
      (∀ k url, totalWorld 9223372036854775808 k url =
        Attempt.answered ⟨hugeLimitPaged.successCode,
          Body.object (totalPage 9223372036854775808 k)⟩) ∧
      JObj.get (totalPage 9223372036854775808 0) hugeLimitPaged.totalIndentifier =
        some (JVal.num (Float64.ofNat 9223372036854775808))) ∧
    pagesNeeded 9223372036854775807 9223372036854775808 = 2 ∧
    DoLoopRequest hugeLimitPaged 1 (totalWorld 9223372036854775808) 5 =
      some ⟨Except.ok ([totalPage 9223372036854775808 0], none),
        [Event.roundTrip "https://api.hubapi.com/deals/v1/deal/paged?hapikey=demo&offset=0"]⟩ ∧
    DoLoopRequest hugeLimitPaged 1 (totalWorld 9223372036854775808) 5 ≠
      some ⟨Except.ok ((List.range (pagesNeeded 9223372036854775807 9223372036854775808)).map
          (totalPage 9223372036854775808), none),
        (List.range (pagesNeeded 9223372036854775807 9223372036854775808)).map
          (fun k => Event.roundTrip
            (hugeLimitPaged.URL ++
              ((if hugeLimitPaged.paramsURL.length > 0 then "&" else "?") ++
                hugeLimitPaged.offsetIdentifier ++ "=" ++
                Itoa ((k * 9223372036854775807 : Nat) : Int))))⟩ := by
  have hrun : DoLoopRequest hugeLimitPaged 1 (totalWorld 9223372036854775808) 5 =
      some ⟨Except.ok ([totalPage 9223372036854775808 0], none),
        [Event.roundTrip "https://api.hubapi.com/deals/v1/deal/paged?hapikey=demo&offset=0"]⟩ :=
    rfl
  have hpages : pagesNeeded 9223372036854775807 9223372036854775808 = 2 := by decide
  refine ⟨⟨by decide, rfl, fun _ _ => rfl, rfl⟩, hpages, hrun, ?_⟩
  rw [hrun, hpages]
  intro h
  injection h with h
  injection h with _ htrace
  exact absurd (congrArg List.length htrace) (by simp)

/-- C6 (amended): in LimitAsOffset mode with a limit that parses to `L ≥ 1`, when page `k`
(counted from 0) is answered, at the URL that ends in the offset parameter with the value
`k * L`, with the success code and a JSON object, the first page carries totalField = T
(at the top level, or where the field locator finds it),
and the last offset computed, max(1, ceil(T / L)) * L, fits a 64-bit `int`,
`DoLoopRequest` returns (given that many units of fuel) after exactly
max(1, ceil(T / L)) round trips, for the URLs `URL & offsetParam = 0, L, 2L, ...` in that
order (`?` in place of `&` when there is no query parameter), with the fetched documents
in fetch order and no error, for every error threshold. -/
theorem DoLoopRequest_limit_as_offset_pages (hsR : HSRequest) (errThreshold : Int) (w : World)
    (L T : Nat) (page : Nat → JObj) (fuel : Nat)
    (hmode : hsR.useLimitAsOffset = true)
    (hL : 1 ≤ L)
    (hlimit : Atoi hsR.limit = ((L : Int), none))
    (hw : ∀ k, k < pagesNeeded L T →
      w k (hsR.URL ++ ((if hsR.paramsURL.length > 0 then "&" else "?") ++
          hsR.offsetIdentifier ++ "=" ++ Itoa ((k * L : Nat) : Int))) =
        Attempt.answered ⟨hsR.successCode, Body.object (page k)⟩)
    (htotal : JObj.get (page 0) hsR.totalIndentifier = some (JVal.num (Float64.ofNat T)) ∨
      iterateSearchForOffset (page 0) hsR.totalIndentifier = Except.ok (Itoa (T : Int)))
    (hrange : pagesNeeded L T * L ≤ 9223372036854775807)
    (hfuel : pagesNeeded L T ≤ fuel) :
    DoLoopRequest hsR errThreshold w fuel =
      some ⟨Except.ok ((List.range (pagesNeeded L T)).map page, none),
        (List.range (pagesNeeded L T)).map
          (fun k => Event.roundTrip
            (hsR.URL ++ ((if hsR.paramsURL.length > 0 then "&" else "?") ++
              hsR.offsetIdentifier ++ "=" ++ Itoa ((k * L : Nat) : Int))))⟩ := by
  have h1 : 1 ≤ pagesNeeded L T := le_max_left _ _
  have htot : iterateSearchForOffset (page 0) hsR.totalIndentifier =
      Except.ok (Itoa (T : Int)) := by
    rcases htotal with h | h
    · rw [iterateSearchForOffset_top _ _ _ h, sprintfF0_ofNat, Itoa_natCast]
    · exact h
  have := loop_limit_as_offset hsR errThreshold w L T (pagesNeeded L T) page hmode hlimit
    hw htot (by omega) (pagesNeeded_covers L T hL)
    (fun m hm hlt => pagesNeeded_least L T m hL hm hlt)
    (pagesNeeded L T) 0 fuel LoopState.init h1 (by omega) hfuel rfl
    (by rw [Nat.zero_mul]; rfl) (Or.inl ⟨rfl, rfl⟩)
  rw [DoLoopRequest, this]
  simp [LoopState.init, List.range_eq_range', requestURL]

/-- Witness of C6: with limit "10", against a server that answers three URLs only, those
ending in `&offset=0`, `&offset=10` and `&offset=20`, each with a page carrying total 25,
there are exactly three round trips, for these URLs in this order, and the three documents
are returned in order; the third pass leaves the offset "30", for which the loop condition
no longer holds. -/
theorem DoLoopRequest_limit_as_offset_pages_witness :
    DoLoopRequest sampleLimitPaged 1
        (urlServer
          [("https://api.hubapi.com/deals/v1/deal/paged?hapikey=demo&offset=0", totalPage 25 0),
           ("https://api.hubapi.com/deals/v1/deal/paged?hapikey=demo&offset=10", totalPage 25 1),
           ("https://api.hubapi.com/deals/v1/deal/paged?hapikey=demo&offset=20", totalPage 25 2)])
        3 =
        some ⟨Except.ok ([totalPage 25 0, totalPage 25 1, totalPage 25 2], none),
          [Event.roundTrip "https://api.hubapi.com/deals/v1/deal/paged?hapikey=demo&offset=0",
           Event.roundTrip "https://api.hubapi.com/deals/v1/deal/paged?hapikey=demo&offset=10",
           Event.roundTrip "https://api.hubapi.com/deals/v1/deal/paged?hapikey=demo&offset=20"]⟩ ∧
      addIntegerToStringInteger "20" sampleLimitPaged.limit = ("30", none) ∧
      (Atoi "30").1 ≥ 25 :=
  ⟨DoLoopRequest_limit_as_offset_pages sampleLimitPaged 1 _ 10 25 (totalPage 25) 3
      rfl (by decide) (by decide)
      (fun k hk => match k, hk with
        | 0, _ => rfl
        | 1, _ => rfl
        | 2, _ => rfl)
      (Or.inl rfl) (by decide) (by decide),
    by decide, by decide⟩

/-- One pass through the body of `for retry` for a page answered with a fatal status:
the error is returned (with no documents) only when the counter reaches the threshold;
otherwise the pass ends with `retry = false`, the counter incremented, and the offset
and the documents untouched. -/
theorem DoLoopRequest_body_fatal (hsR : HSRequest) (errThreshold : Int) (w : World)
    (s : LoopState) (resp : Response)
    (hw : w s.attempts (requestURL hsR s.offset) = Attempt.answered resp)
    (hs : resp.StatusCode ≠ hsR.successCode)
    (hm : resp.StatusCode ∈ [401, 403, 404, 415]) :
    ∃ err, ErrorCodeHandler hsR resp = ⟨false, some err, 0⟩ ∧
      DoLoopRequest.body hsR errThreshold w s =
        if s.errcount + 1 ≥ errThreshold then
          Step.ret ⟨Except.ok ([], some (createError "hsR.ErrorCodeHandler: " err)),
            s.trace ++ [Event.roundTrip (requestURL hsR s.offset)]⟩
        else
          Step.next { s with errcount := s.errcount + 1, attempts := s.attempts + 1,
                             trace := s.trace ++ [Event.roundTrip (requestURL hsR s.offset)] }
            false := by
  have hc : ∃ err, ErrorCodeHandler hsR resp = ⟨false, some err, 0⟩ := by
    simp only [List.mem_cons, List.mem_singleton, List.not_mem_nil, or_false] at hm
    rcases hm with hm | hm | hm | hm <;> rw [hm] at hs <;>
      simp [ErrorCodeHandler, hs, hm]
  obtain ⟨err, hc⟩ := hc
  refine ⟨err, hc, ?_⟩
  simp only [DoLoopRequest.body, hw, hc, sleepEvents]
  by_cases h : s.errcount + 1 ≥ errThreshold <;> simp [h]

/-- C8 (the code at the failing inputs): with threshold 2 and a first page answered with
404, `DoLoopRequest` returns no documents and no error, in OffsetField mode and in
LimitAsOffset mode alike; with threshold 3 and a 404 for the second page, the same page
is requested three times before the error is returned. -/
theorem DoLoopRequest_fatal_below_threshold :
    DoLoopRequest sampleOffsetPaged 2 (answerAlways 404) 5 =
        some ⟨Except.ok ([], none), [Event.roundTrip (requestURL sampleOffsetPaged "0")]⟩ ∧
      DoLoopRequest sampleLimitPaged 2 (answerAlways 404) 5 =
        some ⟨Except.ok ([], none), [Event.roundTrip (requestURL sampleLimitPaged "0")]⟩ ∧
      DoLoopRequest sampleOffsetPaged 3 fatalAfterFirstPage 5 =
        some ⟨Except.ok ([], some (GoError.fresh "hsR.ErrorCodeHandler: 404 unkown endpoint")),
          [Event.roundTrip (requestURL sampleOffsetPaged "0"),
           Event.roundTrip (requestURL sampleOffsetPaged "10"),
           Event.roundTrip (requestURL sampleOffsetPaged "10"),
           Event.roundTrip (requestURL sampleOffsetPaged "10")]⟩ :=
  ⟨rfl, rfl, rfl⟩

/-! ## Theorems: path extractor -/

/-- C9: for every list of documents and every non-empty path that in each document
resolves through nested documents to an array, `SimplifyInterface` returns, without
error, the concatenation of those arrays in document order and then within-array order. -/
theorem SimplifyInterface_concatenates (docs : List JObj) (route : List String)
    (arrs : List (List JVal)) (hr : route ≠ [])
    (h : List.Forall₂ (fun d xs => walkPath d route = PathOutcome.array xs) docs arrs) :
    SimplifyInterface docs route = Except.ok (arrs.flatten, none) := by
  rw [SimplifyInterface, SimplifyInterface_loop_arrays route hr docs arrs [] h]
  simp

/-- Witness of C9: the documents `[{"results":{"items":[1,2]}}, {"results":{"items":[3]}}]`
with the path `["results","items"]` give `[1,2,3]`. -/
theorem SimplifyInterface_concatenates_witness :
    SimplifyInterface sampleDocs ["results", "items"] =
      Except.ok ([jnum 1, jnum 2, jnum 3], none) :=
  SimplifyInterface_concatenates sampleDocs ["results", "items"] [[jnum 1, jnum 2], [jnum 3]]
    (by decide) (List.Forall₂.cons rfl (List.Forall₂.cons rfl List.Forall₂.nil))

/-- C10: for every list of documents and every non-empty path `SimplifyInterface` returns
(it does not panic), and it returns an error if and only if for some document a path
segment is absent, or a non-terminal segment's value is not a nested document, or the
terminal segment's value is not an array; with an error it returns no values; and when
the first document whose walk fails lacks the segment `seg`, the message is
"iterateInterface: " followed by `seg` and " does not exist in map". -/
theorem SimplifyInterface_error_iff (docs : List JObj) (route : List String) (hr : route ≠ []) :
    ∃ vals err, SimplifyInterface docs route = Except.ok (vals, err) ∧
      (err ≠ none ↔ ∃ d ∈ docs,
        (∃ seg, walkPath d route = PathOutcome.absent seg) ∨
        (∃ seg, walkPath d route = PathOutcome.notDocument seg) ∨
        (∃ seg, walkPath d route = PathOutcome.notArray seg)) ∧
      (err ≠ none → vals = []) ∧
      (∀ pre d post seg, docs = pre ++ d :: post →
        (∀ p ∈ pre, ∃ xs, walkPath p route = PathOutcome.array xs) →
        walkPath d route = PathOutcome.absent seg →
        err = some (errorsNew ("iterateInterface: " ++ seg ++ " does not exist in map"))) := by
  obtain ⟨vals, err, h1, h2, h3, h4⟩ := SimplifyInterface_loop_outcome route hr docs []
  refine ⟨vals, err, h1, ?_, h3, ?_⟩
  · rw [h2]
    constructor
    · rintro ⟨d, hd, hf⟩
      exact ⟨d, hd, (PathOutcome.failed_iff _).mp hf⟩
    · rintro ⟨d, hd, hf⟩
      exact ⟨d, hd, (PathOutcome.failed_iff _).mpr hf⟩
  · intro pre d post seg hsplit hpre hseg
    refine h4 pre d post seg hsplit ?_ hseg
    intro p hp hf
    obtain ⟨xs, hxs⟩ := hpre p hp
    rw [hxs] at hf
    exact hf

/-- Witness of C10: for the path `["results","items"]` and the documents
`[{"results":{"items":[1]}}, {"results":{}}]` the theorem applies, and the call returns no
values and the error "iterateInterface: items does not exist in map". -/
theorem SimplifyInterface_error_iff_witness :
    (∃ vals err, SimplifyInterface brokenDocs ["results", "items"] = Except.ok (vals, err) ∧
      (err ≠ none ↔ ∃ d ∈ brokenDocs,
        (∃ seg, walkPath d ["results", "items"] = PathOutcome.absent seg) ∨
        (∃ seg, walkPath d ["results", "items"] = PathOutcome.notDocument seg) ∨
        (∃ seg, walkPath d ["results", "items"] = PathOutcome.notArray seg)) ∧
      (err ≠ none → vals = []) ∧
      (∀ pre d post seg, brokenDocs = pre ++ d :: post →
        (∀ p ∈ pre, ∃ xs, walkPath p ["results", "items"] = PathOutcome.array xs) →
        walkPath d ["results", "items"] = PathOutcome.absent seg →
        err = some (errorsNew ("iterateInterface: " ++ seg ++ " does not exist in map")))) ∧
    SimplifyInterface brokenDocs ["results", "items"] =
      Except.ok ([], some (errorsNew "iterateInterface: items does not exist in map")) :=
  ⟨SimplifyInterface_error_iff brokenDocs ["results", "items"] (by decide),
    by simp [SimplifyInterface, SimplifyInterface.loop, iterateInterface, JObj.get, brokenDocs,
      errorsNew, GoError.Error]⟩

/-! ## Lemmas and theorems: field locator -/

mutual
/-- Where the field name is not reachable through objects the locator returns the empty string
(and executes no type assertion). -/
theorem locate_absent : ∀ (v : JVal) (key : String),
    keyReachable v key = false → locate v key = Except.ok ""
  | JVal.obj fields, key, h => by
    simp only [keyReachable, Bool.or_eq_false_iff] at h
    cases hg : JObj.get fields key with
    | some x => simp [hg] at h
    | none =>
      simp only [locate, hg]
      exact locateRange_absent fields key h.2
  | JVal.null, _, _ => by simp [locate]
  | JVal.bool _, _, _ => by simp [locate]
  | JVal.num _, _, _ => by simp [locate]
  | JVal.str _, _, _ => by simp [locate]
  | JVal.arr _, _, _ => by simp [locate]
/-- The range loop returns the empty string when the field name is reachable from none of the
fields. -/
theorem locateRange_absent : ∀ (fields : List (String × JVal)) (key : String),
    keyReachableFields fields key = false → locateRange fields key = Except.ok ""
  | [], _, _ => by simp [locateRange]
  | (k, v) :: rest, key, h => by
    simp only [keyReachableFields, Bool.or_eq_false_iff] at h
    have h1 := locate_absent v key h.1
    have h2 := locateRange_absent rest key h.2
    cases v <;> simp [locateRange, h1, h2]
end

mutual
/-- Where every value stored under the field name is a number the locator does not panic, and
what it returns is empty exactly when the field name is not reachable through objects. -/
theorem locate_numeric : ∀ (v : JVal) (key : String),
    numericUnder v key = true →
    ∃ s, locate v key = Except.ok s ∧ (s = "" ↔ keyReachable v key = false)
  | JVal.obj fields, key, h => by
    simp only [numericUnder] at h
    cases hg : JObj.get fields key with
    | some x =>
      have hx : x.isNum = true := numericUnderFields_get fields key x h hg
      cases x with
      | num f =>
        refine ⟨sprintfF0 f, by simp [locate, hg], ?_⟩
        simp [keyReachable, hg, sprintfF0_ne_empty]
      | null => simp [JVal.isNum] at hx
      | bool _ => simp [JVal.isNum] at hx
      | str _ => simp [JVal.isNum] at hx
      | arr _ => simp [JVal.isNum] at hx
      | obj _ => simp [JVal.isNum] at hx
    | none =>
      obtain ⟨s, hs, hiff⟩ := locateRange_numeric fields key h
      exact ⟨s, by simp [locate, hg, hs], by simp [keyReachable, hg, hiff]⟩
  | JVal.null, _, _ => ⟨"", by simp [locate], by simp [keyReachable]⟩
  | JVal.bool _, _, _ => ⟨"", by simp [locate], by simp [keyReachable]⟩
  | JVal.num _, _, _ => ⟨"", by simp [locate], by simp [keyReachable]⟩
  | JVal.str _, _, _ => ⟨"", by simp [locate], by simp [keyReachable]⟩
  | JVal.arr _, _, _ => ⟨"", by simp [locate], by simp [keyReachable]⟩
/-- The range loop under the same hypothesis: no panic, and an empty result exactly when the
field name is reachable from none of the fields. -/
theorem locateRange_numeric : ∀ (fields : List (String × JVal)) (key : String),
    numericUnderFields fields key = true →
    ∃ s, locateRange fields key = Except.ok s ∧ (s = "" ↔ keyReachableFields fields key = false)
  | [], _, _ => ⟨"", by simp [locateRange], by simp [keyReachableFields]⟩
  | (k, v) :: rest, key, h => by
    simp only [numericUnderFields, Bool.and_eq_true] at h
    obtain ⟨s1, h1, hiff1⟩ := locate_numeric v key h.1.2
    obtain ⟨s2, h2, hiff2⟩ := locateRange_numeric rest key h.2
    by_cases hs1 : s1 = ""
    · subst hs1
      refine ⟨s2, ?_, ?_⟩
      · cases v <;> simp [locateRange, h1, h2]
      · simp [keyReachableFields, hiff1.mp rfl, hiff2]
    · have hr : keyReachable v key = true := by
        cases hkr : keyReachable v key with
        | true => rfl
        | false => exact absurd (hiff1.mpr hkr) hs1
      refine ⟨s1, ?_, ?_⟩
      · cases v with
        | obj o => simp [locateRange, h1, hs1]
        | null => simp [keyReachable] at hr
        | bool _ => simp [keyReachable] at hr
        | num _ => simp [keyReachable] at hr
        | str _ => simp [keyReachable] at hr
        | arr _ => simp [keyReachable] at hr
      · simp [keyReachableFields, hr, hs1]
/-- Under the numeric hypothesis the value found under the field name is a number. -/
theorem numericUnderFields_get : ∀ (fields : List (String × JVal)) (key : String) (x : JVal),
    numericUnderFields fields key = true → JObj.get fields key = some x → x.isNum = true
  | [], _, _, _, hg => by simp [JObj.get] at hg
  | (k, v) :: rest, key, x, h, hg => by
    simp only [numericUnderFields, Bool.and_eq_true] at h
    by_cases hk : k = key
    · simp only [JObj.get, hk, if_true, Option.some.injEq] at hg
      subst hg
      simpa [hk] using h.1.1
    · simp only [JObj.get, hk, if_false] at hg
      exact numericUnderFields_get rest key x h.2 hg
end

/-- Fields from which the field name is not reachable are passed over by the range loop. -/
theorem locateRange_append_absent (key : String) (rest : List (String × JVal)) :
    ∀ (pre : List (String × JVal)), keyReachableFields pre key = false →
      locateRange (pre ++ rest) key = locateRange rest key
  | [], _ => rfl
  | (k, v) :: pre, h => by
    simp only [keyReachableFields, Bool.or_eq_false_iff] at h
    have h1 := locate_absent v key h.1
    have h2 := locateRange_append_absent key rest pre h.2
    cases v <;> simp [locateRange, h1, h2]

/-- C11: for every document in which every value stored under fieldName (in the document and in
the objects reachable through object-valued fields) is a number, `iterateSearchForOffset`
returns a string, and that string is the empty one (NotFound) if and only if fieldName is
neither a key of the document nor a key of an object reachable from it through object-valued
fields only. -/
theorem iterateSearchForOffset_not_found_iff (obj : JObj) (fieldName : String)
    (hnum : numericUnder (JVal.obj obj) fieldName = true) :
    ∃ s, iterateSearchForOffset obj fieldName = Except.ok s ∧
      (s = "" ↔ keyReachable (JVal.obj obj) fieldName = false) :=
  locate_numeric (JVal.obj obj) fieldName hnum

/-- Witness of C11: in `{"list":[{"off":5}],"meta":{"page":{"off":7}}}` the occurrence two
objects deep is found ("7"), and in `{"list":[{"off":5}]}`, where the only occurrence lies
inside an array, nothing is found. -/
theorem iterateSearchForOffset_not_found_iff_witness :
    (∃ s, iterateSearchForOffset arrayDoc "off" = Except.ok s ∧
      (s = "" ↔ keyReachable (JVal.obj arrayDoc) "off" = false)) ∧
    iterateSearchForOffset arrayDoc "off" = Except.ok "7" ∧
    iterateSearchForOffset [("list", JVal.arr [JVal.obj [("off", jnum 5)]])] "off" =
      Except.ok "" :=
  ⟨iterateSearchForOffset_not_found_iff arrayDoc "off" (by decide), rfl, rfl⟩

/-- C12 as stated fails: in `{"a":{"b":{"off":1}},"c":{"off":2}}`, visited in this field order,
"off" occurs with numeric values at two depths and the occurrence of least depth is unique
(value 2, one object down), yet `iterateSearchForOffset` returns "1", the occurrence two
objects down inside the first field. -/
theorem iterateSearchForOffset_shallowest_counterexample :
    occurrencesAt (JVal.obj nestedDoc) "off" 0 = [] ∧
    occurrencesAt (JVal.obj nestedDoc) "off" 1 = [jnum 2] ∧
    occurrencesAt (JVal.obj nestedDoc) "off" 2 = [jnum 1] ∧
    numericUnder (JVal.obj nestedDoc) "off" = true ∧
    iterateSearchForOffset nestedDoc "off" = Except.ok "1" ∧
    iterateSearchForOffset nestedDoc "off" ≠ Except.ok (sprintfF0 (Float64.ofNat 2)) := by
  have hrun : iterateSearchForOffset nestedDoc "off" = Except.ok "1" := rfl
  refine ⟨rfl, rfl, rfl, rfl, hrun, ?_⟩
  rw [hrun]
  intro h
  injection h with h
  exact absurd h (by decide)

/-- C12 (amended): a numeric occurrence at the top level is returned whatever lies deeper; when
fieldName is not a top-level key, the result is the result of the search of the first
object-valued field, in traversal order, from which fieldName is reachable (a depth-first
walk), so the occurrence returned need not be the shallowest. -/
theorem iterateSearchForOffset_depth_first (obj : JObj) (fieldName : String) :
    (∀ x, JObj.get obj fieldName = some (JVal.num x) →
      iterateSearchForOffset obj fieldName = Except.ok (sprintfF0 x)) ∧
    (∀ pre k o post, JObj.get obj fieldName = none →
      obj = pre ++ (k, JVal.obj o) :: post →
      keyReachableFields pre fieldName = false →
      keyReachable (JVal.obj o) fieldName = true →
      numericUnder (JVal.obj o) fieldName = true →
      iterateSearchForOffset obj fieldName = iterateSearchForOffset o fieldName ∧
        iterateSearchForOffset o fieldName ≠ Except.ok "") := by
  constructor
  · intro x hx
    simp [iterateSearchForOffset, locate, hx]
  · intro pre k o post hg hsplit hpre hreach hnum
    obtain ⟨s, hs, hiff⟩ := locate_numeric (JVal.obj o) fieldName hnum
    have hne : s ≠ "" := by
      intro h0
      have := hiff.mp h0
      rw [hreach] at this
      exact absurd this (by decide)
    have hgo : iterateSearchForOffset o fieldName = Except.ok s := hs
    refine ⟨?_, by rw [hgo]; simpa using hne⟩
    rw [hgo]
    subst hsplit
    simp only [iterateSearchForOffset, locate, hg]
    rw [locateRange_append_absent fieldName _ pre hpre]
    simp [locateRange, hs, hne]

/-- Witness of C12: with "off" : 3 at the top level of the sample document "3" is returned;
without it the result is that of the search of its first field "a". -/
theorem iterateSearchForOffset_depth_first_witness :
    iterateSearchForOffset (("off", jnum 3) :: nestedDoc) "off" =
      Except.ok (sprintfF0 (Float64.ofNat 3)) ∧
    (iterateSearchForOffset nestedDoc "off" =
        iterateSearchForOffset [("b", JVal.obj [("off", jnum 1)])] "off" ∧
      iterateSearchForOffset [("b", JVal.obj [("off", jnum 1)])] "off" ≠ Except.ok "") :=
  ⟨(iterateSearchForOffset_depth_first (("off", jnum 3) :: nestedDoc) "off").1
      (Float64.ofNat 3) rfl,
   (iterateSearchForOffset_depth_first nestedDoc "off").2 [] "a" [("b", JVal.obj [("off", jnum 1)])]
      [("c", JVal.obj [("off", jnum 2)])] rfl rfl rfl rfl rfl⟩

/-! ## Theorems: paginator, OffsetField mode -/

/-- The locator finds a non-empty text in a document from which the field name is reachable
and under which every value stored under that name is a number. -/
theorem iterateSearchForOffset_found (obj : JObj) (key s : String)
    (hnum : numericUnder (JVal.obj obj) key = true)
    (hreach : keyReachable (JVal.obj obj) key = true)
    (hs : iterateSearchForOffset obj key = Except.ok s) : s ≠ "" := by
  obtain ⟨t, ht, hiff⟩ := locate_numeric (JVal.obj obj) key hnum
  rw [iterateSearchForOffset, ht] at hs
  injection hs with hs
  subst hs
  intro h0
  have := hiff.mp h0
  rw [hreach] at this
  exact absurd this (by decide)

/-- C7: in OffsetField mode, let page `k` (counted from 0) be answered, at the URL that ends
in the offset parameter with the value "0" for `k = 0` and with the offset `ret (k - 1)`
returned by the previous page otherwise, with the success code and an object that carries a
numeric resultOffsetField: either at the top level, `ret k` being its `%.0f` text, or below it
with every occurrence numeric, `ret k` being what the field locator returns.  If page `n - 1`
is the first page for which (the requested offset is not "0" and the returned offset is "0")
or the returned offset equals the requested offset, `DoLoopRequest` returns (given `n` units
of fuel) after exactly `n` round trips, for the URLs `URL & offsetParam = 0, ret 0, ret 1, ...`
in that order (`?` in place of `&` when there is no query parameter), with the `n` documents
in fetch order and no error, for every error threshold. -/
theorem DoLoopRequest_offset_field_pages (hsR : HSRequest) (errThreshold : Int) (w : World)
    (n : Nat) (page : Nat → JObj) (ret : Nat → String) (fuel : Nat)
    (hmode : hsR.useLimitAsOffset = false)
    (hn : 1 ≤ n)
    (hw : ∀ k, k < n →
      w k (hsR.URL ++ ((if hsR.paramsURL.length > 0 then "&" else "?") ++
          hsR.offsetIdentifier ++ "=" ++ requestedOffset ret k)) =
        Attempt.answered ⟨hsR.successCode, Body.object (page k)⟩)
    (hfield : ∀ k, k < n →
      (∃ x, JObj.get (page k) hsR.returnedOffsetIdentifier = some (JVal.num x) ∧
        ret k = sprintfF0 x) ∨
      (numericUnder (JVal.obj (page k)) hsR.returnedOffsetIdentifier = true ∧
        keyReachable (JVal.obj (page k)) hsR.returnedOffsetIdentifier = true ∧
        iterateSearchForOffset (page k) hsR.returnedOffsetIdentifier = Except.ok (ret k)))
    (hstop : (requestedOffset ret (n - 1) ≠ "0" ∧ ret (n - 1) = "0") ∨
        ret (n - 1) = requestedOffset ret (n - 1))
    (hfirst : ∀ k, k + 1 < n →
      ¬ ((requestedOffset ret k ≠ "0" ∧ ret k = "0") ∨ ret k = requestedOffset ret k))
    (hfuel : n ≤ fuel) :
    DoLoopRequest hsR errThreshold w fuel =
      some ⟨Except.ok ((List.range n).map page, none),
        (List.range n).map (fun k => Event.roundTrip
          (hsR.URL ++ ((if hsR.paramsURL.length > 0 then "&" else "?") ++
            hsR.offsetIdentifier ++ "=" ++ requestedOffset ret k)))⟩ := by
  have hloc : ∀ k, k < n →
      iterateSearchForOffset (page k) hsR.returnedOffsetIdentifier = Except.ok (ret k) := by
    intro k hk
    rcases hfield k hk with ⟨x, hx, hr⟩ | ⟨_, _, h⟩
    · rw [hr]
      exact iterateSearchForOffset_top _ _ _ hx
    · exact h
  have hne : ∀ k, k < n → ret k ≠ "" := by
    intro k hk
    rcases hfield k hk with ⟨x, _, hr⟩ | ⟨h1, h2, h3⟩
    · rw [hr]
      exact sprintfF0_ne_empty _
    · exact iterateSearchForOffset_found _ _ _ h1 h2 h3
  have := loop_offset_field hsR errThreshold w n page ret hmode hw hloc hne
    (fun k hk => by
      have hk1 : k = n - 1 := by omega
      subst hk1
      rcases hstop with h | h
      · exact Or.inl h
      · exact Or.inr h.symm)
    (fun k hk hcon => hfirst k hk (by
      rcases hcon with h | h
      · exact Or.inl h
      · exact Or.inr h.symm))
    n 0 fuel LoopState.init hn (by omega) hfuel rfl rfl
  rw [DoLoopRequest, this]
  simp [LoopState.init, List.range_eq_range', requestURL]

/-- Witness of C7, against servers that answer only the URLs listed: a server returning the
next offsets 10, 20, 0 yields exactly three pages, requested at the URLs ending in
`&vidOffset=0`, `&vidOffset=10`, `&vidOffset=20`; one returning 10, 10 yields exactly two
pages, requested at `&vidOffset=0`, `&vidOffset=10`; and one whose pages hold the next
offset 7 two objects below the top level yields two pages, requested at `&vidOffset=0`,
`&vidOffset=7`. -/
theorem DoLoopRequest_offset_field_pages_witness :
    DoLoopRequest sampleOffsetPaged 1
        (urlServer
          [("https://api.hubapi.com/contacts/v1/lists/all/contacts/all?hapikey=demo&vidOffset=0",
              offsetPage [10, 20, 0] 0),
           ("https://api.hubapi.com/contacts/v1/lists/all/contacts/all?hapikey=demo&vidOffset=10",
              offsetPage [10, 20, 0] 1),
           ("https://api.hubapi.com/contacts/v1/lists/all/contacts/all?hapikey=demo&vidOffset=20",
              offsetPage [10, 20, 0] 2)])
        3 =
      some ⟨Except.ok ([offsetPage [10, 20, 0] 0, offsetPage [10, 20, 0] 1,
          offsetPage [10, 20, 0] 2], none),
        [Event.roundTrip
           "https://api.hubapi.com/contacts/v1/lists/all/contacts/all?hapikey=demo&vidOffset=0",
         Event.roundTrip
           "https://api.hubapi.com/contacts/v1/lists/all/contacts/all?hapikey=demo&vidOffset=10",
         Event.roundTrip
           "https://api.hubapi.com/contacts/v1/lists/all/contacts/all?hapikey=demo&vidOffset=20"]⟩ ∧
    DoLoopRequest sampleOffsetPaged 1
        (urlServer
          [("https://api.hubapi.com/contacts/v1/lists/all/contacts/all?hapikey=demo&vidOffset=0",
              offsetPage [10, 10] 0),
           ("https://api.hubapi.com/contacts/v1/lists/all/contacts/all?hapikey=demo&vidOffset=10",
              offsetPage [10, 10] 1)])
        2 =
      some ⟨Except.ok ([offsetPage [10, 10] 0, offsetPage [10, 10] 1], none),
        [Event.roundTrip
           "https://api.hubapi.com/contacts/v1/lists/all/contacts/all?hapikey=demo&vidOffset=0",
         Event.roundTrip
           "https://api.hubapi.com/contacts/v1/lists/all/contacts/all?hapikey=demo&vidOffset=10"]⟩ ∧
    DoLoopRequest sampleOffsetPaged 1
        (urlServer
          [("https://api.hubapi.com/contacts/v1/lists/all/contacts/all?hapikey=demo&vidOffset=0",
              nestedOffsetPage 7),
           ("https://api.hubapi.com/contacts/v1/lists/all/contacts/all?hapikey=demo&vidOffset=7",
              nestedOffsetPage 7)])
        2 =
      some ⟨Except.ok ([nestedOffsetPage 7, nestedOffsetPage 7], none),
        [Event.roundTrip
           "https://api.hubapi.com/contacts/v1/lists/all/contacts/all?hapikey=demo&vidOffset=0",
         Event.roundTrip
           "https://api.hubapi.com/contacts/v1/lists/all/contacts/all?hapikey=demo&vidOffset=7"]⟩ :=
  ⟨DoLoopRequest_offset_field_pages sampleOffsetPaged 1 _ 3
      (offsetPage [10, 20, 0]) (fun k => sprintfF0 (Float64.ofNat ([10, 20, 0].getD k 0))) 3
      rfl (by decide)
      (fun k hk => match k, hk with
        | 0, _ => rfl
        | 1, _ => rfl
        | 2, _ => rfl)
      (fun k _ => Or.inl ⟨Float64.ofNat ([10, 20, 0].getD k 0), rfl, rfl⟩)
      (by decide)
      (fun k hk => match k, hk with
        | 0, _ => by decide
        | 1, _ => by decide)
      (by decide),
   DoLoopRequest_offset_field_pages sampleOffsetPaged 1 _ 2
      (offsetPage [10, 10]) (fun k => sprintfF0 (Float64.ofNat ([10, 10].getD k 0))) 2
      rfl (by decide)
      (fun k hk => match k, hk with
        | 0, _ => rfl
        | 1, _ => rfl)
      (fun k _ => Or.inl ⟨Float64.ofNat ([10, 10].getD k 0), rfl, rfl⟩)
      (by decide)
      (fun k hk => match k, hk with
        | 0, _ => by decide)
      (by decide),
   DoLoopRequest_offset_field_pages sampleOffsetPaged 1 _ 2
      (fun _ => nestedOffsetPage 7) (fun _ => "7") 2
      rfl (by decide)
      (fun k hk => match k, hk with
        | 0, _ => rfl
        | 1, _ => rfl)
      (fun _ _ => Or.inr ⟨rfl, rfl, rfl⟩)
      (by decide)
      (fun k hk => match k, hk with
        | 0, _ => by decide)
      (by decide)⟩

/-! ## Theorems: conversion of values to documents -/

/-- The conversion returns an error exactly when some element is not a document, and without
error the output, viewed as values, is the input. -/
theorem ConvertIFCArrayToIFCMap_error_iff : ∀ (vals : List JVal),
    ((ConvertIFCArrayToIFCMap vals).2 ≠ none ↔ ∃ v ∈ vals, ∀ o, v ≠ JVal.obj o) ∧
    ((ConvertIFCArrayToIFCMap vals).2 = none →
      (ConvertIFCArrayToIFCMap vals).1.map JVal.obj = vals)
  | [] => by simp [ConvertIFCArrayToIFCMap]
  | JVal.obj o :: rest => by
    have ih := ConvertIFCArrayToIFCMap_error_iff rest
    simp only [ConvertIFCArrayToIFCMap]
    refine ⟨?_, ?_⟩
    · rw [ih.1]
      simp
    · intro h
      simp [ih.2 h]
  | JVal.null :: rest => by
    simp only [ConvertIFCArrayToIFCMap]
    exact ⟨⟨fun _ => ⟨JVal.null, by simp, by simp⟩, fun _ => by simp⟩, by simp⟩
  | JVal.bool b :: rest => by
    simp only [ConvertIFCArrayToIFCMap]
    exact ⟨⟨fun _ => ⟨JVal.bool b, by simp, by simp⟩, fun _ => by simp⟩, by simp⟩
  | JVal.num x :: rest => by
    simp only [ConvertIFCArrayToIFCMap]
    exact ⟨⟨fun _ => ⟨JVal.num x, by simp, by simp⟩, fun _ => by simp⟩, by simp⟩
  | JVal.str s :: rest => by
    simp only [ConvertIFCArrayToIFCMap]
    exact ⟨⟨fun _ => ⟨JVal.str s, by simp, by simp⟩, fun _ => by simp⟩, by simp⟩
  | JVal.arr xs :: rest => by
    simp only [ConvertIFCArrayToIFCMap]
    exact ⟨⟨fun _ => ⟨JVal.arr xs, by simp, by simp⟩, fun _ => by simp⟩, by simp⟩

/-- Converting documents viewed as values gives the documents back. -/
theorem ConvertIFCArrayToIFCMap_documents : ∀ (docs : List JObj),
    ConvertIFCArrayToIFCMap (docs.map JVal.obj) = (docs, none)
  | [] => rfl
  | d :: rest => by
    simp [ConvertIFCArrayToIFCMap, ConvertIFCArrayToIFCMap_documents rest]

/-- C15: for every list of JSON values `ConvertIFCArrayToIFCMap` returns an error if and only
if some element is not a document; when it succeeds the output has the length of the input and
its i-th element is the i-th input element; and converting a list of documents viewed as values
gives back the same list. -/
theorem ConvertIFCArrayToIFCMap_spec (vals : List JVal) :
    ((ConvertIFCArrayToIFCMap vals).2 ≠ none ↔ ∃ v ∈ vals, ∀ o, v ≠ JVal.obj o) ∧
    ((ConvertIFCArrayToIFCMap vals).2 = none →
      (ConvertIFCArrayToIFCMap vals).1.length = vals.length ∧
      ∀ i (h1 : i < (ConvertIFCArrayToIFCMap vals).1.length) (h2 : i < vals.length),
        JVal.obj ((ConvertIFCArrayToIFCMap vals).1[i]) = vals[i]) ∧
    (∀ docs : List JObj, ConvertIFCArrayToIFCMap (docs.map JVal.obj) = (docs, none)) := by
  refine ⟨(ConvertIFCArrayToIFCMap_error_iff vals).1, ?_, ConvertIFCArrayToIFCMap_documents⟩
  intro h
  have hm := (ConvertIFCArrayToIFCMap_error_iff vals).2 h
  refine ⟨?_, ?_⟩
  · have := congrArg List.length hm
    simpa using this
  · intro i h1 h2
    have : (List.map JVal.obj (ConvertIFCArrayToIFCMap vals).1)[i]? = vals[i]? := by rw [hm]
    simpa [List.getElem?_eq_getElem h1, List.getElem?_eq_getElem h2] using this

/-! ## Theorems: loading a descriptor -/

/-- With an API key set, `Load` rejects the success code 0 and every success code from 600
upwards, and leaves the descriptor as it was. -/
theorem Load_success_code_rejected
    (urlText : String → List (String × List String) → String)
    (hsAPIkey : String) (hsR : HSRequest)
    (method bodyURL body offsetIdentifier returnedOffsetIdentifier totalIndentifier
      limitIdentifier limit : String)
    (headerNames headerValues parameterNames parameterValues : List String)
    (successCode : Int) (useLimitAsOffset : Bool)
    (hkey : hsAPIkey ≠ "") (hcode : successCode = 0 ∨ successCode ≥ 600) :
    Load urlText hsAPIkey hsR method bodyURL body offsetIdentifier returnedOffsetIdentifier
        totalIndentifier limitIdentifier limit headerNames headerValues parameterNames
        parameterValues successCode useLimitAsOffset =
      (hsR, some (errorsNew "http success code invalid")) := by
  simp [Load, checkKeyPresence, hkey, hcode]

/-- With an API key set, the success-code check of `Load` rejects no code that is neither 0 nor
at least 600, the negative codes included. -/
theorem Load_success_code_passed
    (urlText : String → List (String × List String) → String)
    (hsAPIkey : String) (hsR : HSRequest)
    (method bodyURL body offsetIdentifier returnedOffsetIdentifier totalIndentifier
      limitIdentifier limit : String)
    (headerNames headerValues parameterNames parameterValues : List String)
    (successCode : Int) (useLimitAsOffset : Bool)
    (hkey : hsAPIkey ≠ "") (hcode : successCode ≠ 0 ∧ successCode < 600) :
    (Load urlText hsAPIkey hsR method bodyURL body offsetIdentifier returnedOffsetIdentifier
        totalIndentifier limitIdentifier limit headerNames headerValues parameterNames
        parameterValues successCode useLimitAsOffset).2 ≠
      some (errorsNew "http success code invalid") := by
  have hc : ¬ (successCode = 0 ∨ successCode ≥ 600) := by omega
  by_cases hm : method = ""
  · simp [Load, checkKeyPresence, hkey, hc, hm, errorsNew]
  · by_cases hh : headerNames.length = headerValues.length
    · by_cases hb : bodyURL = ""
      · simp [Load, checkKeyPresence, loadRequestHeaders, hkey, hc, hm, hh, hb, errorsNew]
      · by_cases hp : parameterNames.length = parameterValues.length
        · simp [Load, checkKeyPresence, loadRequestHeaders, loadURLParameters, hkey, hc, hm,
            hh, hb, hp]
        · simp [Load, checkKeyPresence, loadRequestHeaders, loadURLParameters, hkey, hc, hm,
            hh, hb, hp, errorsNew, createError, GoError.Error]
    · simp [Load, checkKeyPresence, loadRequestHeaders, hkey, hc, hm, hh, errorsNew,
        createError, GoError.Error]

/-- C13 (the code at the failing input): with an API key set, `Load` with success code -1
returns no error, marks the descriptor loaded and stores -1 as its success code. -/
theorem Load_accepts_negative_success_code :
    (Load urlString "demo" emptyRequest "GET" "/contacts/v1/lists" "" "" "" "" "" "" [] [] [] [] (-1)
        false).2 = none ∧
    (Load urlString "demo" emptyRequest "GET" "/contacts/v1/lists" "" "" "" "" "" "" [] [] [] [] (-1)
        false).1.loaded = true ∧
    (Load urlString "demo" emptyRequest "GET" "/contacts/v1/lists" "" "" "" "" "" "" [] [] [] [] (-1)
        false).1.successCode = -1 :=
  ⟨rfl, rfl, rfl⟩

/-- A call of `Load` that passes the checks on key, success code, method, URL body and list
lengths and selects LimitAsOffset pagination succeeds whatever the limit string is. -/
theorem Load_limit_as_offset_ok
    (urlText : String → List (String × List String) → String)
    (hsAPIkey : String) (hsR : HSRequest)
    (method bodyURL body offsetIdentifier returnedOffsetIdentifier totalIndentifier
      limitIdentifier limit : String)
    (headerNames headerValues parameterNames parameterValues : List String)
    (successCode : Int)
    (hkey : hsAPIkey ≠ "") (hcode : successCode ≠ 0 ∧ successCode < 600)
    (hmethod : method ≠ "") (hurl : bodyURL ≠ "")
    (hh : headerNames.length = headerValues.length)
    (hp : parameterNames.length = parameterValues.length)
    (hoff : offsetIdentifier ≠ "") :
    ∃ hsR', Load urlText hsAPIkey hsR method bodyURL body offsetIdentifier returnedOffsetIdentifier
        totalIndentifier limitIdentifier limit headerNames headerValues parameterNames
        parameterValues successCode true = (hsR', none) ∧
      hsR'.loaded = true ∧ hsR'.successCode = successCode ∧ hsR'.hasOffset = true ∧
      hsR'.useLimitAsOffset = true ∧ hsR'.limit = limit ∧
      hsR'.totalIndentifier = totalIndentifier ∧ hsR'.offsetIdentifier = offsetIdentifier := by
  have hc : ¬ (successCode = 0 ∨ successCode ≥ 600) := by omega
  simp [Load, checkKeyPresence, loadRequestHeaders, loadURLParameters, hkey, hc, hmethod,
    hurl, hh, hp, hoff]

/-- The text "0" parses to 0. -/
theorem Atoi_zero : Atoi "0" = (0, none) := by decide

/-- In LimitAsOffset mode a limit that `Atoi` rejects is reported after the first page has been
fetched. -/
theorem DoLoopRequest_bad_limit (hsR : HSRequest) (errThreshold : Int) (w : World)
    (fuel : Nat) (doc : JObj) (e : GoError) (t : String)
    (hmode : hsR.useLimitAsOffset = true)
    (hlim : (Atoi hsR.limit).2 = some e)
    (hw : w 0 (requestURL hsR "0") = Attempt.answered ⟨hsR.successCode, Body.object doc⟩)
    (hloc : iterateSearchForOffset doc hsR.totalIndentifier = Except.ok t) :
    DoLoopRequest hsR errThreshold w (fuel + 1) =
      some ⟨Except.ok ([], some (createError "addIntegerToStringInteger: " e)),
        [Event.roundTrip (requestURL hsR "0")]⟩ := by
  have hadd : addIntegerToStringInteger "0" hsR.limit = ("", some e) := by
    rcases hA : Atoi hsR.limit with ⟨v, err⟩
    rw [hA] at hlim
    simp only at hlim
    subst hlim
    simp [addIntegerToStringInteger, Atoi_zero, hA]
  simp [DoLoopRequest, DoLoopRequest.loop, DoLoopRequest.body, LoopState.init, hw,
    ErrorCodeHandler_success, hmode, sleepEvents, hloc, hadd]

/-- C14 as stated fails: `Load` called with an API key set, LimitAsOffset pagination selected
and the limit "abc", which does not parse as an integer, returns no error and marks the
descriptor loaded. -/
theorem Load_bad_limit_counterexample :
    (Atoi "abc").2 ≠ none ∧
    (Load urlString "demo" emptyRequest "GET" "/deals/v1/deal/paged" "" "offset" "" "total" "limit" "abc"
        [] [] [] [] 200 true).2 = none ∧
    (Load urlString "demo" emptyRequest "GET" "/deals/v1/deal/paged" "" "offset" "" "total" "limit" "abc"
        [] [] [] [] 200 true).1.loaded = true ∧
    (Load urlString "demo" emptyRequest "GET" "/deals/v1/deal/paged" "" "offset" "" "total" "limit" "abc"
        [] [] [] [] 200 true).1.useLimitAsOffset = true ∧
    (Load urlString "demo" emptyRequest "GET" "/deals/v1/deal/paged" "" "offset" "" "total" "limit" "abc"
        [] [] [] [] 200 true).1.limit = "abc" :=
  ⟨by decide, rfl, rfl, rfl, rfl⟩

/-- C14 (amended): `Load` does not examine the limit string. A call that passes its other
checks and selects LimitAsOffset pagination returns no error and marks the descriptor loaded
for every limit; when the limit does not parse as an integer, `DoLoopRequest` reports it, as
"addIntegerToStringInteger: ...", only after the first page has been requested and answered,
and returns no documents. -/
theorem Load_does_not_check_limit
    (urlText : String → List (String × List String) → String)
    (hsAPIkey : String) (hsR : HSRequest)
    (method bodyURL body offsetIdentifier returnedOffsetIdentifier totalIndentifier
      limitIdentifier limit : String)
    (headerNames headerValues parameterNames parameterValues : List String)
    (successCode : Int)
    (hkey : hsAPIkey ≠ "") (hcode : successCode ≠ 0 ∧ successCode < 600)
    (hmethod : method ≠ "") (hurl : bodyURL ≠ "")
    (hh : headerNames.length = headerValues.length)
    (hp : parameterNames.length = parameterValues.length)
    (hoff : offsetIdentifier ≠ "") :
    ∃ hsR', Load urlText hsAPIkey hsR method bodyURL body offsetIdentifier returnedOffsetIdentifier
        totalIndentifier limitIdentifier limit headerNames headerValues parameterNames
        parameterValues successCode true = (hsR', none) ∧
      hsR'.loaded = true ∧ hsR'.useLimitAsOffset = true ∧ hsR'.limit = limit ∧
      (∀ (errThreshold : Int) (w : World) (fuel : Nat) (doc : JObj) (e : GoError) (t : String),
        (Atoi limit).2 = some e →
        w 0 (requestURL hsR' "0") = Attempt.answered ⟨successCode, Body.object doc⟩ →
        iterateSearchForOffset doc totalIndentifier = Except.ok t →
        DoLoopRequest hsR' errThreshold w (fuel + 1) =
          some ⟨Except.ok ([], some (createError "addIntegerToStringInteger: " e)),
            [Event.roundTrip (requestURL hsR' "0")]⟩) := by
  obtain ⟨hsR', hload, hl, hsc, _, hmode, hlim, htot, _⟩ :=
    Load_limit_as_offset_ok urlText hsAPIkey hsR method bodyURL body offsetIdentifier
      returnedOffsetIdentifier totalIndentifier limitIdentifier limit headerNames headerValues
      parameterNames parameterValues successCode hkey hcode hmethod hurl hh hp hoff
  refine ⟨hsR', hload, hl, hmode, hlim, ?_⟩
  intro errThreshold w fuel doc e t he hw hloc
  exact DoLoopRequest_bad_limit hsR' errThreshold w fuel doc e t hmode (by rw [hlim]; exact he)
    (by rw [hsc]; exact hw) (by rw [htot]; exact hloc)

/-- Witness of C14: the amended statement at the limit "abc". -/
theorem Load_does_not_check_limit_witness :
    ∃ hsR', Load urlString "demo" emptyRequest "GET" "/deals/v1/deal/paged" "" "offset" "" "total" "limit"
        "abc" [] [] [] [] 200 true = (hsR', none) ∧
      hsR'.loaded = true ∧ hsR'.useLimitAsOffset = true ∧ hsR'.limit = "abc" ∧
      (∀ (errThreshold : Int) (w : World) (fuel : Nat) (doc : JObj) (e : GoError) (t : String),
        (Atoi "abc").2 = some e →
        w 0 (requestURL hsR' "0") = Attempt.answered ⟨200, Body.object doc⟩ →
        iterateSearchForOffset doc "total" = Except.ok t →
        DoLoopRequest hsR' errThreshold w (fuel + 1) =
          some ⟨Except.ok ([], some (createError "addIntegerToStringInteger: " e)),
            [Event.roundTrip (requestURL hsR' "0")]⟩) :=
  Load_does_not_check_limit urlString "demo" emptyRequest "GET" "/deals/v1/deal/paged" "" "offset" ""
    "total" "limit" "abc" [] [] [] [] 200 (by decide) (by decide) (by decide) (by decide)
    rfl rfl (by decide)

/-! ## Theorems: totals, rounding -/

/-- The empty text is a syntax error with value 0. -/
theorem Atoi_empty : Atoi "" = (0, some (errorsNew (numErrorMsg "" "invalid syntax"))) := rfl

/-- The integer printed for `mant * 2^exp` is exact for a non-negative exponent and otherwise
lies within one half of the value, a tie going to the even integer (stated after multiplying by
`2 * 2^(-exp)`). -/
theorem roundHalfEven_nearest (mant : Nat) (exp : Int) :
    (0 ≤ exp → roundHalfEven mant exp = mant * 2 ^ exp.toNat) ∧
    (exp < 0 →
      2 * (roundHalfEven mant exp * 2 ^ (-exp).toNat) ≤ 2 * mant + 2 ^ (-exp).toNat ∧
      2 * mant ≤ 2 * (roundHalfEven mant exp * 2 ^ (-exp).toNat) + 2 ^ (-exp).toNat ∧
      ((2 * (roundHalfEven mant exp * 2 ^ (-exp).toNat) = 2 * mant + 2 ^ (-exp).toNat ∨
          2 * mant = 2 * (roundHalfEven mant exp * 2 ^ (-exp).toNat) + 2 ^ (-exp).toNat) →
        roundHalfEven mant exp % 2 = 0)) := by
  constructor
  · intro h
    simp [roundHalfEven, h]
  · intro h
    have hn : ¬ (0 ≤ exp) := by omega
    have hd : 0 < 2 ^ (-exp).toNat := pow_pos (by decide) _
    generalize hD : 2 ^ (-exp).toNat = d at hd ⊢
    have h1 := Nat.div_add_mod mant d
    have h2 := Nat.mod_lt mant hd
    obtain ⟨X, hX⟩ : ∃ X, X = d * (mant / d) := ⟨_, rfl⟩
    have hq : mant / d * d = X := by rw [hX, Nat.mul_comm]
    have hq1 : (mant / d + 1) * d = X + d := by rw [Nat.add_mul, Nat.one_mul, hq]
    rw [← hX] at h1
    simp only [roundHalfEven, hn, if_false, hD]
    by_cases c1 : 2 * (mant % d) < d
    · simp only [c1, if_true]
      rw [hq]
      omega
    · simp only [c1, if_false]
      by_cases c2 : d < 2 * (mant % d)
      · simp only [c2, if_true]
        rw [hq1]
        omega
      · simp only [c2, if_false]
        by_cases c3 : mant / d % 2 = 0
        · rw [if_pos c3, hq]
          exact ⟨by omega, by omega, fun _ => c3⟩
        · rw [if_neg c3, hq1]
          exact ⟨by omega, by omega, fun _ => by omega⟩

/-- The value `Atoi` gives for the decimal text of a positive number is positive, with or
without a range error. -/
theorem Atoi_repr_pos (n : Nat) (h : 0 < n) : 0 < (Atoi (Nat.repr n)).1 := by
  by_cases hn : n < 9223372036854775808
  · rw [Atoi_repr n hn]
    show (0 : Int) < (n : Int)
    exact_mod_cast h
  · rw [Atoi_repr_large n (by omega)]
    decide

/-- C17 as stated fails: in LimitAsOffset mode with a first page that lacks the total field,
the located text is empty, `Atoi` fails on it, and after the first pass the total is 0, not -1. -/
theorem DoLoopRequest_total_after_failed_parse_counterexample :
    iterateSearchForOffset [("page", jnum 0)] sampleLimitPaged.totalIndentifier = Except.ok "" ∧
    (Atoi "").2 ≠ none ∧
    DoLoopRequest.body sampleLimitPaged 1 noTotalWorld LoopState.init =
      Step.next { data := [[("page", jnum 0)]], errcount := 0, offset := "10", pastoffset := "0",
                  total := 0, attempts := 1,
                  trace := [Event.roundTrip (requestURL sampleLimitPaged "0")] } false ∧
    (0 : Int) ≠ -1 :=
  ⟨rfl, by decide, rfl, by decide⟩

/-- C17 (amended): in LimitAsOffset mode, when the text located for totalField on the first
page fails to parse (and the limit parses), the parse error is discarded and the pass does not
fail; the total becomes the value `Atoi` returns with its error, which is 0 for a syntax error
such as an absent field, or a bound of `int` for a range error, and in no case -1. -/
theorem DoLoopRequest_total_after_failed_parse (hsR : HSRequest) (errThreshold : Int)
    (w : World) (doc : JObj)
    (t offset : String)
    (hmode : hsR.useLimitAsOffset = true)
    (hw : w 0 (requestURL hsR "0") = Attempt.answered ⟨hsR.successCode, Body.object doc⟩)
    (hloc : iterateSearchForOffset doc hsR.totalIndentifier = Except.ok t)
    (hparse : (Atoi t).2 ≠ none)
    (hadd : addIntegerToStringInteger "0" hsR.limit = (offset, none)) :
    DoLoopRequest.body hsR errThreshold w LoopState.init =
        Step.next { data := [doc], errcount := 0, offset := offset, pastoffset := "0",
                    total := (Atoi t).1, attempts := 1,
                    trace := [Event.roundTrip (requestURL hsR "0")] } false ∧
      ((Atoi t).1 = 0 ∨ (Atoi t).1 = maxInt ∨ (Atoi t).1 = minInt) ∧
      (Atoi t).1 ≠ -1 ∧
      (t = "" → (Atoi t).1 = 0) := by
  have hv := Atoi_error_value t hparse
  refine ⟨?_, hv, ?_, ?_⟩
  · have := body_limit_page hsR errThreshold w LoopState.init doc (Atoi t).1 offset hmode
      hw (Or.inl ⟨by decide, t, hloc, rfl⟩) hadd
    simpa [LoopState.init] using this
  · rcases hv with h | h | h <;> rw [h] <;> decide
  · rintro rfl
    rfl

/-- Witness of C17: a first page without the total field, limit "10". -/
theorem DoLoopRequest_total_after_failed_parse_witness :
    DoLoopRequest.body sampleLimitPaged 1 noTotalWorld LoopState.init =
        Step.next { data := [[("page", jnum 0)]], errcount := 0, offset := "10",
                    pastoffset := "0", total := (Atoi "").1, attempts := 1,
                    trace := [Event.roundTrip (requestURL sampleLimitPaged "0")] } false ∧
      ((Atoi "").1 = 0 ∨ (Atoi "").1 = maxInt ∨ (Atoi "").1 = minInt) ∧
      (Atoi "").1 ≠ -1 ∧
      ("" = "" → (Atoi "").1 = 0) :=
  DoLoopRequest_total_after_failed_parse sampleLimitPaged 1 noTotalWorld [("page", jnum 0)]
    "" "10" rfl rfl rfl (by decide) rfl

/-- C18 as stated fails: for the top-level number 2.75 (11 * 2^-2) `iterateSearchForOffset`
returns "3", while dropping the fractional part gives "2". -/
theorem iterateSearchForOffset_truncation_counterexample :
    iterateSearchForOffset [("off", JVal.num ⟨false, 11, -2⟩)] "off" = Except.ok "3" ∧
    truncateF0 ⟨false, 11, -2⟩ = "2" ∧
    iterateSearchForOffset [("off", JVal.num ⟨false, 11, -2⟩)] "off" ≠
      Except.ok (truncateF0 ⟨false, 11, -2⟩) := by
  have h1 : iterateSearchForOffset [("off", JVal.num ⟨false, 11, -2⟩)] "off" = Except.ok "3" :=
    rfl
  have h2 : truncateF0 ⟨false, 11, -2⟩ = "2" := rfl
  refine ⟨h1, h2, ?_⟩
  rw [h1, h2]
  intro h
  injection h with h
  exact absurd h (by decide)

/-- C18 (amended): for every document whose top-level key fieldName holds a number v,
`iterateSearchForOffset` returns the sign followed by the decimal text of v rounded to the
nearest integer, a tie going to the even integer; when v is integer-valued this is the text
with the (zero) fractional part dropped. -/
theorem iterateSearchForOffset_rounds_half_even (obj : JObj) (fieldName : String) (v : Float64)
    (hv : JObj.get obj fieldName = some (JVal.num v)) :
    iterateSearchForOffset obj fieldName =
        Except.ok ((if v.neg then "-" else "") ++ Nat.repr (roundHalfEven v.mant v.exp)) ∧
      (0 ≤ v.exp → roundHalfEven v.mant v.exp = v.mant * 2 ^ v.exp.toNat) ∧
      (v.exp < 0 →
        2 * (roundHalfEven v.mant v.exp * 2 ^ (-v.exp).toNat) ≤
            2 * v.mant + 2 ^ (-v.exp).toNat ∧
          2 * v.mant ≤
            2 * (roundHalfEven v.mant v.exp * 2 ^ (-v.exp).toNat) + 2 ^ (-v.exp).toNat ∧
          ((2 * (roundHalfEven v.mant v.exp * 2 ^ (-v.exp).toNat) =
                2 * v.mant + 2 ^ (-v.exp).toNat ∨
              2 * v.mant =
                2 * (roundHalfEven v.mant v.exp * 2 ^ (-v.exp).toNat) + 2 ^ (-v.exp).toNat) →
            roundHalfEven v.mant v.exp % 2 = 0)) ∧
      ((0 ≤ v.exp ∨ v.mant % 2 ^ (-v.exp).toNat = 0) →
        iterateSearchForOffset obj fieldName = Except.ok (truncateF0 v)) := by
  have hr := roundHalfEven_nearest v.mant v.exp
  refine ⟨iterateSearchForOffset_top obj fieldName v hv, hr.1, hr.2, ?_⟩
  intro hint
  rw [iterateSearchForOffset_top obj fieldName v hv]
  by_cases h0 : 0 ≤ v.exp
  · simp [sprintfF0, truncateF0, roundHalfEven, h0]
  · have hm : v.mant % 2 ^ (-v.exp).toNat = 0 := by
      rcases hint with h | h
      · exact absurd h h0
      · exact h
    have hd : 0 < 2 ^ (-v.exp).toNat := pow_pos (by decide) _
    simp [sprintfF0, truncateF0, roundHalfEven, h0, hm, hd]

/-- Witness of C18: 123.0, held as 123 * 2^0 or as 246 * 2^-1, is rendered "123". -/
theorem iterateSearchForOffset_rounds_half_even_witness :
    iterateSearchForOffset [("off", JVal.num ⟨false, 123, 0⟩)] "off" = Except.ok "123" ∧
    iterateSearchForOffset [("off", JVal.num ⟨false, 246, -1⟩)] "off" = Except.ok "123" :=
  ⟨(iterateSearchForOffset_rounds_half_even [("off", JVal.num ⟨false, 123, 0⟩)] "off"
      ⟨false, 123, 0⟩ rfl).1,
   (iterateSearchForOffset_rounds_half_even [("off", JVal.num ⟨false, 246, -1⟩)] "off"
      ⟨false, 246, -1⟩ rfl).1⟩

/-! ## Theorems: a limit of zero, index safety -/

/-- Adding a limit that parses to 0 to the offset "0" gives "0". -/
theorem addInteger_zero_limit (limit : String) (h : Atoi limit = (0, none)) :
    addIntegerToStringInteger "0" limit = ("0", none) := by
  simp only [addIntegerToStringInteger, Atoi_zero, h]
  rfl

/-- One iteration of the outer loop in LimitAsOffset mode with a limit of 0 and a positive
total: the page is fetched at offset "0", the offset stays "0", the total is positive and the
loop condition holds. -/
theorem zero_limit_step (hsR : HSRequest) (errThreshold : Int) (w : World) (T : Nat)
    (page : Nat → JObj)
    (hmode : hsR.useLimitAsOffset = true)
    (hlimit : Atoi hsR.limit = (0, none))
    (hT : 0 < T)
    (hw : ∀ k, w k (requestURL hsR "0") =
      Attempt.answered ⟨hsR.successCode, Body.object (page k)⟩)
    (htotal : JObj.get (page 0) hsR.totalIndentifier = some (JVal.num (Float64.ofNat T)))
    (s : LoopState) (hoff : s.offset = "0")
    (hinv : (s.total = -1 ∧ s.attempts = 0) ∨ 0 < s.total) :
    ∃ total : Int, 0 < total ∧
      DoLoopRequest.body hsR errThreshold w s =
        Step.next { data := s.data ++ [page s.attempts], errcount := s.errcount, offset := "0",
                    pastoffset := "0", total := total, attempts := s.attempts + 1,
                    trace := s.trace ++ [Event.roundTrip (requestURL hsR "0")] } false ∧
      DoLoopRequest.check hsR
          { data := s.data ++ [page s.attempts], errcount := s.errcount, offset := "0",
            pastoffset := "0", total := total, attempts := s.attempts + 1,
            trace := s.trace ++ [Event.roundTrip (requestURL hsR "0")] } =
        Step.next { data := s.data ++ [page s.attempts], errcount := s.errcount, offset := "0",
                    pastoffset := "0", total := total, attempts := s.attempts + 1,
                    trace := s.trace ++ [Event.roundTrip (requestURL hsR "0")] } true := by
  have hadd : addIntegerToStringInteger s.offset hsR.limit = ("0", none) := by
    rw [hoff]; exact addInteger_zero_limit _ hlimit
  have hwk : w s.attempts (requestURL hsR s.offset) =
      Attempt.answered ⟨hsR.successCode, Body.object (page s.attempts)⟩ := by
    rw [hoff]; exact hw _
  rcases hinv with ⟨htot, hatt⟩ | hpos
  · refine ⟨(Atoi (Nat.repr T)).1, Atoi_repr_pos T hT, ?_, ?_⟩
    · have := body_limit_page hsR errThreshold w s (page s.attempts) (Atoi (Nat.repr T)).1 "0"
        hmode hwk
        (Or.inl ⟨by omega, Nat.repr T, by
          rw [hatt, iterateSearchForOffset_top _ _ _ htotal, sprintfF0_ofNat], rfl⟩) hadd
      rw [this, hoff]
    · exact check_limit_more hsR _ 0 hmode rfl (by decide) (Atoi_repr_pos T hT)
  · refine ⟨s.total, hpos, ?_, ?_⟩
    · have := body_limit_page hsR errThreshold w s (page s.attempts) s.total "0"
        hmode hwk (Or.inr ⟨by omega, rfl⟩) hadd
      rw [this, hoff]
    · exact check_limit_more hsR _ 0 hmode rfl (by decide) hpos

/-- C19: in LimitAsOffset mode with a limit that parses to 0 and a first page carrying
totalField = T > 0, when every page succeeds `DoLoopRequest` never returns, whatever the fuel;
every iteration requests offset "0", leaves the offset "0" and the total positive, and the loop
condition holds after it. -/
theorem DoLoopRequest_zero_limit_never_done (hsR : HSRequest) (errThreshold : Int)
    (w : World) (T : Nat)
    (page : Nat → JObj)
    (hmode : hsR.useLimitAsOffset = true)
    (hlimit : Atoi hsR.limit = (0, none))
    (hT : 0 < T)
    (hw : ∀ k, w k (requestURL hsR "0") =
      Attempt.answered ⟨hsR.successCode, Body.object (page k)⟩)
    (htotal : JObj.get (page 0) hsR.totalIndentifier = some (JVal.num (Float64.ofNat T))) :
    (∀ fuel, DoLoopRequest hsR errThreshold w fuel = none) ∧
    (∀ s : LoopState, s.offset = "0" → ((s.total = -1 ∧ s.attempts = 0) ∨ 0 < s.total) →
      ∃ s1, DoLoopRequest.body hsR errThreshold w s = Step.next s1 false ∧
        s1.offset = "0" ∧ 0 < s1.total ∧
        s1.trace = s.trace ++ [Event.roundTrip (requestURL hsR "0")] ∧
        DoLoopRequest.check hsR s1 = Step.next s1 true) := by
  constructor
  · intro fuel
    have key : ∀ (fuel : Nat) (s : LoopState), s.offset = "0" →
        ((s.total = -1 ∧ s.attempts = 0) ∨ 0 < s.total) →
        DoLoopRequest.loop hsR errThreshold w fuel s = none := by
      intro fuel
      induction fuel with
      | zero => intro s _ _; rfl
      | succ fuel ih =>
        intro s hoff hinv
        obtain ⟨total, hpos, hb, hc⟩ :=
          zero_limit_step hsR errThreshold w T page hmode hlimit hT hw htotal s hoff hinv
        rw [loop_page_more hsR errThreshold w fuel s _ _ hb hc]
        exact ih _ rfl (Or.inr hpos)
    exact key fuel LoopState.init rfl (Or.inl ⟨rfl, rfl⟩)
  · intro s hoff hinv
    obtain ⟨total, hpos, hb, hc⟩ :=
      zero_limit_step hsR errThreshold w T page hmode hlimit hT hw htotal s hoff hinv
    exact ⟨_, hb, rfl, hpos, rfl, hc⟩

/-- Witness of C19: limit "0" and total 25. -/
theorem DoLoopRequest_zero_limit_never_done_witness :
    (∀ fuel, DoLoopRequest { sampleLimitPaged with limit := "0" } 1 (totalWorld 25) fuel = none) ∧
    (∀ s : LoopState, s.offset = "0" → ((s.total = -1 ∧ s.attempts = 0) ∨ 0 < s.total) →
      ∃ s1, DoLoopRequest.body { sampleLimitPaged with limit := "0" } 1 (totalWorld 25) s =
          Step.next s1 false ∧
        s1.offset = "0" ∧ 0 < s1.total ∧
        s1.trace = s.trace ++
          [Event.roundTrip (requestURL { sampleLimitPaged with limit := "0" } "0")] ∧
        DoLoopRequest.check { sampleLimitPaged with limit := "0" } s1 = Step.next s1 true) :=
  DoLoopRequest_zero_limit_never_done { sampleLimitPaged with limit := "0" } 1
    (totalWorld 25) 25 (totalPage 25)
    rfl (by decide) (by decide) (fun _ => rfl) rfl

/-- For an index inside the route `iterateInterface` returns: no index expression is out of
range. -/
theorem iterateInterface_in_range (n : Nat) :
    ∀ (data : JObj) (route : List String) (index : Nat),
      route.length - index = n → index < route.length →
      ∃ r, iterateInterface data route index = Except.ok r := by
  induction n with
  | zero => intro _ _ _ h1 h2; omega
  | succ n ih =>
    intro data route index hn hlt
    rw [iterateInterface, dif_pos hlt]
    cases hg : JObj.get data route[index] with
    | none => exact ⟨_, rfl⟩
    | some value =>
      simp only []
      by_cases hlast : index = route.length - 1
      · rw [dif_pos hlast]
        cases value <;> exact ⟨_, rfl⟩
      · rw [dif_neg hlast]
        have hnext : index + 1 < route.length := by omega
        cases value with
        | obj m => exact ih m route (index + 1) (by omega) hnext
        | null => simp [List.getElem?_eq_getElem hnext]
        | bool _ => simp [List.getElem?_eq_getElem hnext]
        | num _ => simp [List.getElem?_eq_getElem hnext]
        | str _ => simp [List.getElem?_eq_getElem hnext]
        | arr _ => simp [List.getElem?_eq_getElem hnext]

/-- C20: for every non-empty path `SimplifyInterface` returns for every list of documents, and
`iterateInterface` returns from every index inside the path (no index out of range; the
function is total, its recursion being justified by the measure `len(route) - index`); a
recursive call is made at `index + 1` and only while `index + 1 < len(route)`; for the empty
path and a non-empty list of documents the call panics with an index out of range. -/
theorem SimplifyInterface_index_safety :
    (∀ (docs : List JObj) (route : List String), route ≠ [] →
      ∃ r, SimplifyInterface docs route = Except.ok r) ∧
    (∀ (data : JObj) (route : List String) (index : Nat), index < route.length →
      ∃ r, iterateInterface data route index = Except.ok r) ∧
    (∀ (data m : JObj) (route : List String) (index : Nat) (h : index + 1 < route.length),
      JObj.get data (route.get ⟨index, by omega⟩) = some (JVal.obj m) →
      iterateInterface data route index = iterateInterface m route (index + 1)) ∧
    (∀ (d : JObj) (rest : List JObj),
      SimplifyInterface (d :: rest) [] = Except.error "index out of range") := by
  refine ⟨?_, ?_, ?_, ?_⟩
  · intro docs route hr
    obtain ⟨vals, err, h, _⟩ := SimplifyInterface_loop_outcome route hr docs []
    exact ⟨(vals, err), h⟩
  · intro data route index h
    exact iterateInterface_in_range _ data route index rfl h
  · intro data m route index h hg
    have hlt : index < route.length := by omega
    have hnl : ¬ (index = route.length - 1) := by omega
    rw [iterateInterface, dif_pos hlt]
    simp only [List.get_eq_getElem] at hg
    rw [hg]
    simp only []
    rw [dif_neg hnl]
  · intro d rest
    simp [SimplifyInterface, SimplifyInterface.loop, iterateInterface]

/-- Witness of C20: the sample documents with the empty path panic, with the path
`["results","items"]` the call returns. -/
theorem SimplifyInterface_index_safety_witness :
    SimplifyInterface sampleDocs [] = Except.error "index out of range" ∧
    (∃ r, SimplifyInterface sampleDocs ["results", "items"] = Except.ok r) :=
  ⟨SimplifyInterface_index_safety.2.2.2 _ _,
   SimplifyInterface_index_safety.1 sampleDocs ["results", "items"] (by decide)⟩

/-! ## Theorems: the error budget -/

end Gohs
